import Mathlib

set_option maxRecDepth 40000

/-!
Shallow embedding of the core of the Advanced-Search-Engine repository
(`search_engine/indexer.py`, `search_engine/engine.py`,
`search_engine/cache/cache_manager.py`, `search_engine/cache/redis_client.py`,
`search_engine/factories/ranker_factory.py`, `search_engine/document.py`),
together with theorems settling the frozen claims about it.

Modelling conventions:
* Python runtime values that flow through the cache layer are modelled by
  `PyVal`; dictionaries are string-keyed association lists (every dictionary
  built by this code has string keys).
* Exceptions are modelled with `Except PyErr`; an operation that the source
  lets an exception escape from returns `.error e`.
* Machine floats (similarity scores) are modelled as rationals `ℚ`: the claims
  under verification concern ordering, positivity, counting and data flow of
  the scores, none of which depend on rounding.
* `hashlib.md5(...).hexdigest()` is implemented bit-for-bit (RFC 1321) over the
  UTF-8 bytes of the input, as `md5hex`.
-/

/-- Python exceptions that the embedded code can raise or catch. -/
inductive PyErr where
  /-- `TypeError` (e.g. calling a function with the wrong number of arguments). -/
  | typeError
  /-- builtin `ConnectionError` (raised by `RedisClient.client` when reconnection fails). -/
  | connectionError
  /-- `ValueError` (raised by `Document.from_dict` and `RankerFactory.create_ranker`). -/
  | valueError
  /-- `KeyError` (dictionary lookup failure). -/
  | keyError
  /-- `IndexError` (sequence index out of range). -/
  | indexError
deriving DecidableEq, Repr

/-- Python values as they appear in the cache layer. Dictionaries are
string-keyed association lists in insertion order (all dictionaries built by
the embedded code have string keys). -/
inductive PyVal where
  | str (s : String)
  | int (n : Int)
  | float (q : ℚ)
  | bool (b : Bool)
  | none
  | list (l : List PyVal)
  | tuple (l : List PyVal)
  | dict (l : List (String × PyVal))

/-- Python truthiness (`bool(v)`) for the modelled values. -/
def pyTruthy : PyVal → Bool
  | .str s => s ≠ ""
  | .int n => n ≠ 0
  | .float q => q ≠ 0
  | .bool b => b
  | .none => false
  | .list l => ¬ l.isEmpty
  | .tuple l => ¬ l.isEmpty
  | .dict l => ¬ l.isEmpty

/-- `d[k]` lookup on a string-keyed dictionary association list. -/
def dictLookup (l : List (String × PyVal)) (k : String) : Option PyVal :=
  match l.find? (fun p => p.1 = k) with
  | some p => some p.2
  | Option.none => Option.none

/-- `d[k] = v` on a string-keyed dictionary association list: updates in place
if the key exists, otherwise appends (Python dicts keep insertion order). -/
def dictInsert (l : List (String × PyVal)) (k : String) (v : PyVal) : List (String × PyVal) :=
  if l.any (fun p => p.1 = k) then
    l.map (fun p => if p.1 = k then (k, v) else p)
  else
    l ++ [(k, v)]

/-- `del d[k]` on a string-keyed dictionary association list. -/
def dictErase (l : List (String × PyVal)) (k : String) : List (String × PyVal) :=
  l.filter (fun p => p.1 ≠ k)

/-! ### UTF-8 and MD5 (`hashlib.md5(...).hexdigest()` on `str.encode()`) -/

/-- UTF-8 encoding of a single code point (Python `str.encode()` per character). -/
def utf8Char (c : Char) : List Nat :=
  let n := c.toNat
  if n < 0x80 then [n]
  else if n < 0x800 then
    [0xC0 ||| (n >>> 6), 0x80 ||| (n &&& 0x3F)]
  else if n < 0x10000 then
    [0xE0 ||| (n >>> 12), 0x80 ||| ((n >>> 6) &&& 0x3F), 0x80 ||| (n &&& 0x3F)]
  else
    [0xF0 ||| (n >>> 18), 0x80 ||| ((n >>> 12) &&& 0x3F),
     0x80 ||| ((n >>> 6) &&& 0x3F), 0x80 ||| (n &&& 0x3F)]

/-- Bytes of `s.encode()` (UTF-8). -/
def strBytes (s : String) : List Nat :=
  s.data.foldr (fun c acc => utf8Char c ++ acc) []

namespace MD5

/-- Truncating 32-bit addition. -/
def add32 (a b : Nat) : Nat := (a + b) % 4294967296

/-- 32-bit left rotation. -/
def rotl (x n : Nat) : Nat :=
  ((x <<< n) ||| (x >>> (32 - n))) % 4294967296

/-- The 64 sine-derived round constants of RFC 1321. -/
def K : List Nat :=
  [0xd76aa478, 0xe8c7b756, 0x242070db, 0xc1bdceee, 0xf57c0faf, 0x4787c62a,
   0xa8304613, 0xfd469501, 0x698098d8, 0x8b44f7af, 0xffff5bb1, 0x895cd7be,
   0x6b901122, 0xfd987193, 0xa679438e, 0x49b40821, 0xf61e2562, 0xc040b340,
   0x265e5a51, 0xe9b6c7aa, 0xd62f105d, 0x02441453, 0xd8a1e681, 0xe7d3fbc8,
   0x21e1cde6, 0xc33707d6, 0xf4d50d87, 0x455a14ed, 0xa9e3e905, 0xfcefa3f8,
   0x676f02d9, 0x8d2a4c8a, 0xfffa3942, 0x8771f681, 0x6d9d6122, 0xfde5380c,
   0xa4beea44, 0x4bdecfa9, 0xf6bb4b60, 0xbebfbc70, 0x289b7ec6, 0xeaa127fa,
   0xd4ef3085, 0x04881d05, 0xd9d4d039, 0xe6db99e5, 0x1fa27cf8, 0xc4ac5665,
   0xf4292244, 0x432aff97, 0xab9423a7, 0xfc93a039, 0x655b59c3, 0x8f0ccc92,
   0xffeff47d, 0x85845dd1, 0x6fa87e4f, 0xfe2ce6e0, 0xa3014314, 0x4e0811a1,
   0xf7537e82, 0xbd3af235, 0x2ad7d2bb, 0xeb86d391]

/-- The per-round left-rotation amounts of RFC 1321. -/
def S : List Nat :=
  [7, 12, 17, 22, 7, 12, 17, 22, 7, 12, 17, 22, 7, 12, 17, 22,
   5, 9, 14, 20, 5, 9, 14, 20, 5, 9, 14, 20, 5, 9, 14, 20,
   4, 11, 16, 23, 4, 11, 16, 23, 4, 11, 16, 23, 4, 11, 16, 23,
   6, 10, 15, 21, 6, 10, 15, 21, 6, 10, 15, 21, 6, 10, 15, 21]

/-- Round function F (rounds 0–15). -/
def mF (b c d : Nat) : Nat := (b &&& c) ||| ((b ^^^ 0xFFFFFFFF) &&& d)

/-- Round function G (rounds 16–31). -/
def mG (b c d : Nat) : Nat := (d &&& b) ||| ((d ^^^ 0xFFFFFFFF) &&& c)

/-- Round function H (rounds 32–47). -/
def mH (b c d : Nat) : Nat := b ^^^ c ^^^ d

/-- Round function I (rounds 48–63). -/
def mI (b c d : Nat) : Nat := (c ^^^ (b ||| (d ^^^ 0xFFFFFFFF))) % 4294967296

/-- One MD5 round: updates the running `(a, b, c, d)` state with round `i`
over the 16-word message block `M`. -/
def mdStep (M : List Nat) (st : Nat × Nat × Nat × Nat) (i : Nat) : Nat × Nat × Nat × Nat :=
  let (a, b, c, d) := st
  let fg : Nat × Nat :=
    if i < 16 then (mF b c d, i)
    else if i < 32 then (mG b c d, (5 * i + 1) % 16)
    else if i < 48 then (mH b c d, (3 * i + 5) % 16)
    else (mI b c d, (7 * i) % 16)
  let tmp := add32 (add32 (add32 a fg.1) (K.getD i 0)) (M.getD fg.2 0)
  (d, add32 b (rotl tmp (S.getD i 0)), b, c)

/-- Little-endian 32-bit word from (up to) four bytes. -/
def leWord (b : List Nat) : Nat :=
  b.getD 0 0 + 256 * b.getD 1 0 + 65536 * b.getD 2 0 + 16777216 * b.getD 3 0

/-- The sixteen message words of a 64-byte block (little-endian). -/
def blockWords (block : List Nat) : List Nat :=
  (List.range 16).map (fun i => leWord ((block.drop (4 * i)).take 4))

/-- Process one 64-byte block, updating the digest state. -/
def processBlock (st : Nat × Nat × Nat × Nat) (block : List Nat) : Nat × Nat × Nat × Nat :=
  let M := blockWords block
  let r := (List.range 64).foldl (mdStep M) st
  (add32 st.1 r.1, add32 st.2.1 r.2.1, add32 st.2.2.1 r.2.2.1, add32 st.2.2.2 r.2.2.2)

/-- Split a byte list into 64-byte blocks (`fuel` bounds the recursion depth;
`toBlocks` supplies the list length, which always suffices). -/
def toBlocksAux : Nat → List Nat → List (List Nat)
  | 0, _ => []
  | _, [] => []
  | fuel + 1, b :: rest => ((b :: rest).take 64) :: toBlocksAux fuel ((b :: rest).drop 64)

/-- Split a byte list into 64-byte blocks. -/
def toBlocks (l : List Nat) : List (List Nat) := toBlocksAux l.length l

/-- MD5 padding: append `0x80`, zero bytes, and the 64-bit little-endian bit
length, reaching a multiple of 64 bytes. -/
def pad (msg : List Nat) : List Nat :=
  let len := msg.length
  let padLen := (64 + 56 - (len + 1) % 64) % 64
  let bitLen := (len * 8) % 18446744073709551616
  msg ++ [0x80] ++ List.replicate padLen 0 ++
    [bitLen % 256, (bitLen >>> 8) % 256, (bitLen >>> 16) % 256, (bitLen >>> 24) % 256,
     (bitLen >>> 32) % 256, (bitLen >>> 40) % 256, (bitLen >>> 48) % 256, (bitLen >>> 56) % 256]

/-- Lowercase hex digit of a value below 16. -/
def hexDigit (n : Nat) : Char :=
  if n < 10 then Char.ofNat (48 + n) else Char.ofNat (87 + n)

/-- Two lowercase hex digits of a byte. -/
def byteHex (b : Nat) : List Char := [hexDigit (b / 16), hexDigit (b % 16)]

/-- The four little-endian bytes of a 32-bit word. -/
def wordLEBytes (w : Nat) : List Nat :=
  [w % 256, (w >>> 8) % 256, (w >>> 16) % 256, (w >>> 24) % 256]

end MD5

/-- `hashlib.md5(msg).hexdigest()`: the 32-character lowercase hex digest of a
byte sequence. -/
def md5hex (msg : List Nat) : String :=
  let st := (MD5.toBlocks (MD5.pad msg)).foldl MD5.processBlock
    (0x67452301, 0xefcdab89, 0x98badcfe, 0x10325476)
  String.mk (((MD5.wordLEBytes st.1 ++ MD5.wordLEBytes st.2.1 ++
    MD5.wordLEBytes st.2.2.1 ++ MD5.wordLEBytes st.2.2.2).map MD5.byteHex).foldr
      (fun a b => a ++ b) [])

example : md5hex (strBytes "") = "d41d8cd98f00b204e9800998ecf8427e" := by decide
example : md5hex (strBytes "abc") = "900150983cd24fb0d6963f7d28e17f72" := by decide
example : md5hex (strBytes "The quick brown fox jumps over the lazy dog")
    = "9e107d9d372bb6826bd81d3542a419d6" := by decide

/-! ### String helpers (`str.lower`, `str.strip`, `Indexer.preprocess_query`) -/

/-- Python `str.lower()`: lowercase character by character; faithful on ASCII,
which is all the embedded claims exercise. -/
def pyLower (s : String) : String := String.mk (s.data.map Char.toLower)

/-- Python `str.strip()`: remove leading and trailing whitespace. -/
def pyStrip (s : String) : String :=
  String.mk (((s.data.dropWhile Char.isWhitespace).reverse.dropWhile Char.isWhitespace).reverse)

/-- Characters kept by `re.sub(r'[^\w\s]', '', query)`: word characters
(alphanumeric or underscore) and whitespace. ASCII approximation of the
Unicode classes. -/
def isWordOrSpace (c : Char) : Bool := c.isAlphanum || c.toNat = 95 || c.isWhitespace

/-- Collapse runs of spaces to a single space (the effect of
`re.sub(r'\s+', ' ', query)` after whitespace has been mapped to spaces). -/
def dedupSpace : List Char → List Char
  | [] => []
  | [c] => [c]
  | a :: b :: rest =>
    if a.toNat = 32 && b.toNat = 32 then dedupSpace (b :: rest)
    else a :: dedupSpace (b :: rest)

/-- `Indexer.preprocess_query` (indexer.py lines 128–144): lowercase, drop
punctuation, collapse whitespace, strip. -/
def preprocess_query (query : String) : String :=
  let q1 := pyLower query
  let q2 := String.mk (q1.data.filter isWordOrSpace)
  let q3 := String.mk (dedupSpace (q2.data.map (fun c => if c.isWhitespace then Char.ofNat 32 else c)))
  pyStrip q3

/-! ### `Document` (document.py) -/

/-- `Document` (document.py): identifier, content, metadata. `metadata` is kept
as a `PyVal` because Python places no constraint on it. -/
structure Document where
  doc_id : String
  content : String
  metadata : PyVal

/-- `Document.__init__`: `self.metadata = metadata or {}`. -/
def mkDocument (doc_id content : String) (metadata : PyVal) : Document :=
  ⟨doc_id, content, if pyTruthy metadata then metadata else .dict []⟩

/-- `Document.to_dict`. -/
def Document.to_dict (d : Document) : PyVal :=
  .dict [("doc_id", .str d.doc_id), ("content", .str d.content), ("metadata", d.metadata)]

/-- `Document.from_dict`: requires `doc_id` and `content` keys, raising
`ValueError` otherwise (the source catches the `KeyError` and re-raises it as
`ValueError`). Identifiers and content are modelled as strings, which is what
every record built by this repository carries. -/
def Document.from_dict (data : PyVal) : Except PyErr Document :=
  match data with
  | .dict l =>
    match dictLookup l "doc_id", dictLookup l "content" with
    | some (.str i), some (.str c) =>
      .ok (mkDocument i c ((dictLookup l "metadata").getD (.dict [])))
    | _, _ => .error .valueError
  | _ => .error .valueError

/-! ### `Indexer` (indexer.py) -/

/-- `Indexer` state (indexer.py lines 15–29).

* `documents` models the insertion-ordered dict `self.documents` (Python dicts
  preserve insertion order); identifiers are unique by construction.
* `vectorizer` models the fitted `TfidfVectorizer`: `vectorizer q corpus c` is
  the cosine similarity produced on line 167 between the transformed query `q`
  and the TF-IDF row of a document with content `c`, for a vectorizer fit on
  the document contents `corpus`. sklearn's vectorizer is a deterministic
  function of the fitted corpus, so every similarity it can produce is an
  instance of this parameter.
* `built` is the corpus snapshot `fit_transform` was last run on (it determines
  `self.tfidf_matrix`); `Option.none` models `self.tfidf_matrix is None`. -/
structure Indexer where
  vectorizer : String → List String → String → ℚ
  documents : List Document
  built : Option (List Document)
  is_index_built : Bool

/-- A fresh `Indexer` (indexer.py `__init__`). -/
def Indexer.init (vec : String → List String → String → ℚ) : Indexer :=
  ⟨vec, [], Option.none, false⟩

/-- `Indexer.add_document` (lines 31–51): reject duplicates, else append and
clear the freshness flag. Returns the Python return value and updated state. -/
def Indexer.add_document (ix : Indexer) (doc : Document) : Bool × Indexer :=
  if ix.documents.any (fun d => d.doc_id = doc.doc_id) then (false, ix)
  else (true, { ix with documents := ix.documents ++ [doc], is_index_built := false })

/-- `Indexer.add_documents` (lines 53–72): add each, counting successes. -/
def Indexer.add_documents (ix : Indexer) (docs : List Document) : Nat × Indexer :=
  docs.foldl (fun acc d =>
    let r := acc.2.add_document d
    (if r.1 then acc.1 + 1 else acc.1, r.2)) (0, ix)

/-- `Indexer.remove_document` (lines 74–91): delete and clear the freshness
flag, or report `False` on `KeyError`. -/
def Indexer.remove_document (ix : Indexer) (doc_id : String) : Bool × Indexer :=
  if ix.documents.any (fun d => d.doc_id = doc_id) then
    (true, { ix with
             documents := ix.documents.filter (fun d => d.doc_id ≠ doc_id)
             is_index_built := false })
  else (false, ix)

/-- `Indexer.get_document` (lines 93–107). -/
def Indexer.get_document (ix : Indexer) (doc_id : String) : Option Document :=
  ix.documents.find? (fun d => d.doc_id = doc_id)

/-- `Indexer.build_index` (lines 109–126): fails on an empty store leaving the
state untouched; otherwise snapshots the corpus and sets the freshness flag. -/
def Indexer.build_index (ix : Indexer) : Bool × Indexer :=
  if ix.documents.isEmpty then (false, ix)
  else (true, { ix with built := some ix.documents, is_index_built := true })

/-- The ascending comparison the model uses for `np.argsort(scores)` on
positions: by score, ties by position. numpy's default introsort runs its
stable insertion sort on arrays of at most 16 elements, for which this
ascending-position tie order is exact; on longer arrays the quicksort
partitioning can reorder equal keys, so the tie order here is one concrete
refinement of `np.argsort`'s contract, and no claim theorem relies on the
model's tie order beyond 16 elements. The properties the other claim theorems
draw from the argsort output — ascending score order, membership of the
positions, result counts — hold under every tie order. -/
def idxLe (scores : List ℚ) (i j : Nat) : Bool :=
  decide (scores.getD i 0 < scores.getD j 0 ∨ (scores.getD i 0 = scores.getD j 0 ∧ i ≤ j))

/-- Insert a position into an already sorted position list. -/
def insertSorted (le : Nat → Nat → Bool) (i : Nat) : List Nat → List Nat
  | [] => [i]
  | j :: rest => if le i j then i :: j :: rest else j :: insertSorted le i rest

/-- Insertion sort over positions. -/
def isort (le : Nat → Nat → Bool) : List Nat → List Nat
  | [] => []
  | i :: rest => insertSorted le i (isort le rest)

/-- `np.argsort(scores)`: the positions of `scores` sorted ascending by
score. Exactly numpy's output for up to 16 elements (the regime of its
stable insertion-sort fallback); beyond that, numpy leaves the order of
equal-scored positions unspecified and this model fixes the stable one —
see `idxLe` for which theorems may depend on ties. -/
def argsortAsc (scores : List ℚ) : List Nat :=
  isort (idxLe scores) (List.range scores.length)

/-- Python/numpy slice `l[start:]` for an arbitrary integer `start`: negative
values count from the end and are clamped; note `l[-0:]` is `l[0:]`, the whole
sequence. -/
def pySliceFrom {α : Type} (l : List α) (start : Int) : List α :=
  if start ≥ 0 then l.drop start.toNat
  else l.drop ((l.length : Int) + start).toNat

/-- The result loop of `Indexer.search` (lines 172–177): walk `top_indices`,
keep strictly positive scores, and look each index up in `doc_ids` and then in
the document dict (Python would raise on a missing index or key, which cannot
happen in reachable states). -/
def collectResults (docs : List Document) (doc_ids : List String) (scores : List ℚ) :
    List Nat → Except PyErr (List (Document × ℚ))
  | [] => .ok []
  | idx :: rest =>
    match scores.get? idx with
    | Option.none => .error .indexError
    | some score =>
      if score > 0 then
        match doc_ids.get? idx with
        | Option.none => .error .indexError
        | some did =>
          match docs.find? (fun d => d.doc_id = did) with
          | Option.none => .error .keyError
          | some doc =>
            match collectResults docs doc_ids scores rest with
            | .ok tail => .ok ((doc, score) :: tail)
            | .error e => .error e
      else collectResults docs doc_ids scores rest

/-- `Indexer.search` (lines 146–178): rebuild if stale (returning `[]` when the
corpus is empty), score every indexed document against the preprocessed query,
take `np.argsort(...)[-top_n:][::-1]`, and keep the strictly positive scores. -/
def Indexer.search (ix : Indexer) (query : String) (top_n : Int) :
    Except PyErr (List (Document × ℚ) × Indexer) :=
  let st : Option Indexer :=
    if ¬ ix.is_index_built then
      let r := ix.build_index
      if r.1 then some r.2 else Option.none
    else some ix
  match st with
  | Option.none => .ok ([], ix)
  | some ix' =>
    match ix'.built with
    | Option.none =>
      -- unreachable: with the freshness flag set the vectorizer has been fit;
      -- in Python, `transform` on an unfitted vectorizer raises
      .error .valueError
    | some snapshot =>
      let processed := preprocess_query query
      let corpus := snapshot.map (fun d => d.content)
      let cosine_similarities := snapshot.map (fun d => ix'.vectorizer processed corpus d.content)
      let doc_ids := ix'.documents.map (fun d => d.doc_id)
      let top_indices := (pySliceFrom (argsortAsc cosine_similarities) (-top_n)).reverse
      match collectResults ix'.documents doc_ids cosine_similarities top_indices with
      | .ok results => .ok (results, ix')
      | .error e => .error e

/-! ### `RedisClient` (redis_client.py)

The external Redis service is modelled by `RedisState`: an association-list
store plus two booleans — `serverUp` (the service is reachable: operations on a
live client succeed; otherwise they raise `redis.RedisError`, which every
wrapper method catches) and `connected` (`self._client is not None`). JSON
serialization round-trips every value this code ever stores (string-keyed
dicts, lists, strings, numbers), so it is modelled as the identity; the one
JSON-unstable shape, a tuple, only occurs as a *key* and is rejected by the
client before reaching the store. TTLs are recorded but, with no clock in the
model, never expire an entry. -/

structure RedisState where
  connected : Bool
  serverUp : Bool
  store : List (String × PyVal)

/-- The string redis-py sends for a key: it accepts strings and numbers and
raises `DataError` (a `RedisError`) for any other type, tuples included. -/
def redisKeyStr : PyVal → Option String
  | .str s => some s
  | .int n => some (toString n)
  | _ => Option.none

/-- The `client` property (redis_client.py lines 61–75): returns the live
client, reconnecting if needed; raises builtin `ConnectionError` — *not* a
`redis.RedisError` — when reconnection fails. -/
def RedisState.clientProp (st : RedisState) : Except PyErr RedisState :=
  if st.connected then .ok st
  else if st.serverUp then .ok { st with connected := true }
  else .error .connectionError

/-- `RedisClient.get` (lines 92–114): `RedisError` is caught and surfaced as
`None`; the builtin `ConnectionError` from the `client` property is not. An
entry whose raw string is empty is falsy on line 104 and also yields `None`. -/
def RedisState.redisGet (st : RedisState) (key : PyVal) : Except PyErr (Option PyVal × RedisState) :=
  match st.clientProp with
  | .error e => .error e
  | .ok st' =>
    match redisKeyStr key with
    | Option.none => .ok (Option.none, st')
    | some k =>
      if st'.serverUp then
        match dictLookup st'.store k with
        | some (.str "") => .ok (Option.none, st')
        | some v => .ok (some v, st')
        | Option.none => .ok (Option.none, st')
      else .ok (Option.none, st')

/-- `RedisClient.set` (lines 116–140): serialization and `RedisError` failures
are caught and surfaced as `False`. -/
def RedisState.redisSet (st : RedisState) (key : PyVal) (value : PyVal) (expiry : Option Nat) :
    Except PyErr (Bool × RedisState) :=
  match st.clientProp with
  | .error e => .error e
  | .ok st' =>
    match redisKeyStr key with
    | Option.none => .ok (false, st')
    | some k =>
      if st'.serverUp then .ok (true, { st' with store := dictInsert st'.store k value })
      else .ok (false, st')

/-- `RedisClient.delete` (lines 142–156): returns whether a key was removed;
`RedisError` is caught and surfaced as `False`. -/
def RedisState.redisDelete (st : RedisState) (key : PyVal) : Except PyErr (Bool × RedisState) :=
  match st.clientProp with
  | .error e => .error e
  | .ok st' =>
    match redisKeyStr key with
    | Option.none => .ok (false, st')
    | some k =>
      if st'.serverUp then
        .ok ((dictLookup st'.store k).isSome, { st' with store := dictErase st'.store k })
      else .ok (false, st')

/-- `pre` is an initial segment of `s`. -/
def strStarts (pre s : String) : Bool := decide (s.data.take pre.data.length = pre.data)

/-- `RedisClient.keys_pattern` (lines 188–202). Its signature takes a single
`pattern` argument. The glob is modelled for the shape `p*` (a literal plus a
trailing star), the only shape any caller builds. -/
def RedisState.keys_pattern (st : RedisState) (pattern : String) :
    Except PyErr (List String × RedisState) :=
  match st.clientProp with
  | .error e => .error e
  | .ok st' =>
    if st'.serverUp then
      .ok ((st'.store.map Prod.fst).filter (strStarts (pattern.dropRight 1)), st')
    else .ok ([], st')

/-- A positional Python call to `RedisClient.keys_pattern` with argument list
`args`. The method accepts exactly one positional argument besides `self`
(redis_client.py line 188), so any other arity raises `TypeError` before the
method body runs. -/
def callKeysPattern (st : RedisState) (args : List String) :
    Except PyErr (List String × RedisState) :=
  match args with
  | [pattern] => st.keys_pattern pattern
  | _ => .error .typeError

/-! ### `CacheManager` (cache_manager.py) -/

/-- `CacheManager` state (cache_manager.py lines 29–49). -/
structure CacheManager where
  redis : RedisState
  doc_ttl : Nat
  query_ttl : Nat
  stats_ttl : Nat
  cache_hits : Nat
  cache_misses : Nat
  cache_enabled : Bool

/-- A fresh `CacheManager` over a given Redis state (default TTLs 86400/3600/300,
zero metrics, caching enabled). -/
def CacheManager.init (redis : RedisState) : CacheManager :=
  ⟨redis, 86400, 3600, 300, 0, 0, true⟩

/-- `CacheManager.enable_cache`. -/
def CacheManager.enable_cache (cm : CacheManager) : CacheManager :=
  { cm with cache_enabled := true }

/-- `CacheManager.disable_cache`. -/
def CacheManager.disable_cache (cm : CacheManager) : CacheManager :=
  { cm with cache_enabled := false }

/-- `CacheManager._generate_query_key` (lines 70–85): lowercase and strip the
query, then `"query:" + md5_hex(f"{normalized}:{top_n}")`. -/
def CacheManager.generate_query_key (query : String) (top_n : Int) : String :=
  let normalized_query := pyLower (pyStrip query)
  let query_hash := md5hex (strBytes (normalized_query ++ ":" ++ toString top_n))
  "query:" ++ query_hash

/-- `CacheManager._generate_doc_key` (lines 87–97). -/
def CacheManager.generate_doc_key (doc_id : String) : String := "doc:" ++ doc_id

/-- Models `time.time()`. The produced timestamp is stored inside query-cache
entries but never read back by any code under verification, so its value is
irrelevant to every claim; it is fixed at `0`. -/
def timeTime : ℚ := 0

/-- `CacheManager.cache_document` (lines 99–113). -/
def CacheManager.cache_document (cm : CacheManager) (doc_id : String) (document_data : PyVal) :
    Except PyErr (Bool × CacheManager) :=
  if ¬ cm.cache_enabled then .ok (false, cm)
  else
    match cm.redis.redisSet (.str (CacheManager.generate_doc_key doc_id)) document_data
        (some cm.doc_ttl) with
    | .error e => .error e
    | .ok (b, r) => .ok (b, { cm with redis := r })

/-- `CacheManager.get_cached_document` (lines 115–135): a truthy result counts
a hit, anything else a miss. -/
def CacheManager.get_cached_document (cm : CacheManager) (doc_id : String) :
    Except PyErr (Option PyVal × CacheManager) :=
  if ¬ cm.cache_enabled then .ok (Option.none, cm)
  else
    match cm.redis.redisGet (.str (CacheManager.generate_doc_key doc_id)) with
    | .error e => .error e
    | .ok (some v, r) =>
      if pyTruthy v then
        .ok (some v, { cm with redis := r, cache_hits := cm.cache_hits + 1 })
      else
        .ok (Option.none, { cm with redis := r, cache_misses := cm.cache_misses + 1 })
    | .ok (Option.none, r) =>
      .ok (Option.none, { cm with redis := r, cache_misses := cm.cache_misses + 1 })

/-- `CacheManager.cache_query_results` (lines 137–160): store
`{'results': …, 'timestamp': …, 'query': …, 'top_n': …}` under the query key. -/
def CacheManager.cache_query_results (cm : CacheManager) (query : String) (results : List PyVal)
    (top_n : Int) : Except PyErr (Bool × CacheManager) :=
  if ¬ cm.cache_enabled then .ok (false, cm)
  else
    let key := CacheManager.generate_query_key query top_n
    let cache_entry : PyVal := .dict
      [("results", .list results), ("timestamp", .float timeTime),
       ("query", .str query), ("top_n", .int top_n)]
    match cm.redis.redisSet (.str key) cache_entry (some cm.query_ttl) with
    | .error e => .error e
    | .ok (b, r) => .ok (b, { cm with redis := r })

/-- `CacheManager.get_cached_query_results` (lines 162–184): an entry that is a
truthy dict containing `'results'` counts a hit and its `'results'` value is
returned; anything else counts a miss. -/
def CacheManager.get_cached_query_results (cm : CacheManager) (query : String) (top_n : Int) :
    Except PyErr (Option PyVal × CacheManager) :=
  if ¬ cm.cache_enabled then .ok (Option.none, cm)
  else
    let key := CacheManager.generate_query_key query top_n
    match cm.redis.redisGet (.str key) with
    | .error e => .error e
    | .ok (entry?, r) =>
      match entry? with
      | some (.dict l) =>
        if pyTruthy (.dict l) ∧ (dictLookup l "results").isSome then
          .ok (dictLookup l "results", { cm with redis := r, cache_hits := cm.cache_hits + 1 })
        else
          .ok (Option.none, { cm with redis := r, cache_misses := cm.cache_misses + 1 })
      | _ => .ok (Option.none, { cm with redis := r, cache_misses := cm.cache_misses + 1 })

/-- `CacheManager.invalidate_document` (lines 186–197). -/
def CacheManager.invalidate_document (cm : CacheManager) (doc_id : String) :
    Except PyErr (Bool × CacheManager) :=
  match cm.redis.redisDelete (.str (CacheManager.generate_doc_key doc_id)) with
  | .error e => .error e
  | .ok (b, r) => .ok (b, { cm with redis := r })

/-- Delete each key in turn (the loops of lines 209–210 and 223–224). -/
def deleteKeys (r : RedisState) : List String → Except PyErr RedisState
  | [] => .ok r
  | k :: rest =>
    match r.redisDelete (.str k) with
    | .error e => .error e
    | .ok (_, r') => deleteKeys r' rest

/-- `CacheManager.invalidate_all_documents` (lines 199–211). Line 206 calls
`self.redis.keys_pattern("%s*", self.DOC_PREFIX)` — two positional arguments
to a one-parameter method. -/
def CacheManager.invalidate_all_documents (cm : CacheManager) :
    Except PyErr (Bool × CacheManager) :=
  match callKeysPattern cm.redis ["%s*", "doc:"] with
  | .error e => .error e
  | .ok (keys, r) =>
    if keys.isEmpty then .ok (true, { cm with redis := r })
    else
      match deleteKeys r keys with
      | .error e => .error e
      | .ok r' => .ok (true, { cm with redis := r' })

/-- `CacheManager.invalidate_all_queries` (lines 213–225). Line 220 calls
`self.redis.keys_pattern("%s*", self.QUERY_PREFIX)` — two positional arguments
to a one-parameter method. -/
def CacheManager.invalidate_all_queries (cm : CacheManager) :
    Except PyErr (Bool × CacheManager) :=
  match callKeysPattern cm.redis ["%s*", "query:"] with
  | .error e => .error e
  | .ok (keys, r) =>
    if keys.isEmpty then .ok (true, { cm with redis := r })
    else
      match deleteKeys r keys with
      | .error e => .error e
      | .ok r' => .ok (true, { cm with redis := r' })

/-- `CacheManager.invalidate_all` (lines 227–234). -/
def CacheManager.invalidate_all (cm : CacheManager) : Except PyErr (Bool × CacheManager) :=
  match cm.invalidate_all_documents with
  | .error e => .error e
  | .ok (b1, cm') =>
    if b1 then
      match cm'.invalidate_all_queries with
      | .error e => .error e
      | .ok (b2, cmB) => .ok (b2, cmB)
    else .ok (false, cm')

/-- The key expression built by both stats methods (cache_manager.py lines 248
and 260): `key = "%s engine_stats", self.STATS_PREFIX`. In Python the comma
makes this the 2-tuple `("%s engine_stats", "stats:")`, not a formatted
string. -/
def CacheManager.statsKey : PyVal := .tuple [.str "%s engine_stats", .str "stats:"]

/-- `CacheManager.cache_stats` (lines 236–249). -/
def CacheManager.cache_stats (cm : CacheManager) (stats_data : PyVal) :
    Except PyErr (Bool × CacheManager) :=
  if ¬ cm.cache_enabled then .ok (false, cm)
  else
    match cm.redis.redisSet CacheManager.statsKey stats_data (some cm.stats_ttl) with
    | .error e => .error e
    | .ok (b, r) => .ok (b, { cm with redis := r })

/-- `CacheManager.get_cached_stats` (lines 251–261). -/
def CacheManager.get_cached_stats (cm : CacheManager) :
    Except PyErr (Option PyVal × CacheManager) :=
  if ¬ cm.cache_enabled then .ok (Option.none, cm)
  else
    match cm.redis.redisGet CacheManager.statsKey with
    | .error e => .error e
    | .ok (v, r) => .ok (v, { cm with redis := r })

/-- `CacheManager.get_cache_metrics` (lines 263–278). -/
def CacheManager.get_cache_metrics (cm : CacheManager) : PyVal :=
  let total := cm.cache_hits + cm.cache_misses
  let hit_ratio : ℚ := if total > 0 then (cm.cache_hits : ℚ) / (total : ℚ) else 0
  .dict [("hits", .int cm.cache_hits), ("misses", .int cm.cache_misses),
         ("total", .int total), ("hit_ratio", .float hit_ratio),
         ("cache_enabled", .bool cm.cache_enabled)]

/-- `CacheManager.reset_metrics` (lines 280–283). -/
def CacheManager.reset_metrics (cm : CacheManager) : CacheManager :=
  { cm with cache_hits := 0, cache_misses := 0 }

/-! ### `RankerFactory` (factories/ranker_factory.py) and `TfIdfRanker` -/

/-- A ranker object, identified by its display name (`TfIdfRanker.name` is
`"TF-IDF Ranker"`); its scoring methods are not exercised by the engine code
under verification (`SearchEngine.search` ranks through the indexer). -/
structure Ranker where
  name : String

/-- `RankerFactory.create_ranker` (lines 13–35): lowercases the requested type,
returns a `TfIdfRanker` for `"tfidf"`, raises `ValueError` otherwise. -/
def RankerFactory.create_ranker (ranker_type : String) : Except PyErr Ranker :=
  if pyLower ranker_type = "tfidf" then .ok ⟨"TF-IDF Ranker"⟩
  else .error .valueError

/-! ### `SearchEngine` (engine.py) -/

/-- `SearchEngine` state (engine.py lines 21–49). `cache_manager` is `none`
when the engine was constructed with `enable_cache=False`. -/
structure SearchEngine where
  indexer : Indexer
  ranker : Ranker
  enable_cache : Bool
  cache_manager : Option CacheManager

/-- `SearchEngine.__init__` (lines 21–49) for a known ranker type. When caching
is requested a `RedisClient` is built: its constructor's `connect()` swallows
connection failures (leaving `_client = None`), so construction succeeds and
caching stays enabled whether or not the server is reachable; `serverUp` says
whether it is. -/
def SearchEngine.init (vec : String → List String → String → ℚ) (ranker_type : String)
    (enable_cache : Bool) (serverUp : Bool) : Except PyErr SearchEngine :=
  match RankerFactory.create_ranker ranker_type with
  | .error e => .error e
  | .ok r =>
    .ok { indexer := Indexer.init vec
          ranker := r
          enable_cache := enable_cache
          cache_manager :=
            if enable_cache then
              some (CacheManager.init ⟨serverUp, serverUp, []⟩)
            else Option.none }

/-- `SearchEngine.index_document` (lines 51–77): add to the indexer; on success
with caching enabled, write the document through to the cache and invalidate
all cached queries. -/
def SearchEngine.index_document (e : SearchEngine) (doc_id content : String) (metadata : PyVal) :
    Except PyErr (Bool × SearchEngine) :=
  let doc := mkDocument doc_id content metadata
  let r := e.indexer.add_document doc
  let e' := { e with indexer := r.2 }
  match e'.cache_manager with
  | some cm =>
    if r.1 ∧ e'.enable_cache then
      match cm.cache_document doc_id doc.to_dict with
      | .error err => .error err
      | .ok (_, cm1) =>
        match cm1.invalidate_all_queries with
        | .error err => .error err
        | .ok (_, cm2) => .ok (r.1, { e' with cache_manager := some cm2 })
    else .ok (r.1, e')
  | Option.none => .ok (r.1, e')

/-- `SearchEngine.index_documents` (lines 79–113): parse the records (skipping
those `Document.from_dict` rejects), add them, and on a positive count with
caching enabled write each document through and invalidate all cached
queries. -/
def SearchEngine.index_documents (e : SearchEngine) (documents_data : List PyVal) :
    Except PyErr (Nat × SearchEngine) :=
  let documents := documents_data.foldr
    (fun data acc => match Document.from_dict data with
      | .ok d => d :: acc
      | .error _ => acc) []
  let r := e.indexer.add_documents documents
  let e' := { e with indexer := r.2 }
  match e'.cache_manager with
  | some cm =>
    if r.1 > 0 ∧ e'.enable_cache then
      match documents.foldlM
          (fun (c : CacheManager) d =>
            match c.cache_document d.doc_id d.to_dict with
            | .error err => Except.error err
            | .ok (_, c') => Except.ok c') cm with
      | .error err => .error err
      | .ok cm1 =>
        match cm1.invalidate_all_queries with
        | .error err => .error err
        | .ok (_, cm2) => .ok (r.1, { e' with cache_manager := some cm2 })
    else .ok (r.1, e')
  | Option.none => .ok (r.1, e')

/-- `SearchEngine.remove_document` (lines 115–133): remove from the indexer; on
success with caching enabled, invalidate the document's cache entry and all
cached queries. -/
def SearchEngine.remove_document (e : SearchEngine) (doc_id : String) :
    Except PyErr (Bool × SearchEngine) :=
  let r := e.indexer.remove_document doc_id
  let e' := { e with indexer := r.2 }
  match e'.cache_manager with
  | some cm =>
    if r.1 ∧ e'.enable_cache then
      match cm.invalidate_document doc_id with
      | .error err => .error err
      | .ok (_, cm1) =>
        match cm1.invalidate_all_queries with
        | .error err => .error err
        | .ok (_, cm2) => .ok (r.1, { e' with cache_manager := some cm2 })
    else .ok (r.1, e')
  | Option.none => .ok (r.1, e')

/-- `SearchEngine.get_document` (lines 135–169): cache first (falling through
when the cached record cannot be rebuilt into a `Document`), then the indexer,
backfilling the cache on a store hit. -/
def SearchEngine.get_document (e : SearchEngine) (doc_id : String) :
    Except PyErr (Option Document × SearchEngine) :=
  let viaStore (e1 : SearchEngine) : Except PyErr (Option Document × SearchEngine) :=
    match e1.indexer.get_document doc_id with
    | some doc =>
      match e1.cache_manager with
      | some cm =>
        if e1.enable_cache then
          match cm.cache_document doc_id doc.to_dict with
          | .error err => .error err
          | .ok (_, cm') => .ok (some doc, { e1 with cache_manager := some cm' })
        else .ok (some doc, e1)
      | Option.none => .ok (some doc, e1)
    | Option.none => .ok (Option.none, e1)
  match e.cache_manager with
  | some cm =>
    if e.enable_cache then
      match cm.get_cached_document doc_id with
      | .error err => .error err
      | .ok (cached?, cm') =>
        let e1 := { e with cache_manager := some cm' }
        match cached? with
        | some cached =>
          if pyTruthy cached then
            match Document.from_dict cached with
            | .ok doc => .ok (some doc, e1)
            | .error _ => viaStore e1    -- `ValueError` logged, falls through
          else viaStore e1
        | Option.none => viaStore e1
    else viaStore e
  | Option.none => viaStore e

/-- The result-formatting loop of `SearchEngine.search` (lines 196–203). -/
def formatResults (results : List (Document × ℚ)) : List PyVal :=
  results.map (fun r => .dict
    [("doc_id", .str r.1.doc_id), ("content", .str r.1.content),
     ("metadata", r.1.metadata), ("score", .float r.2)])

/-- The cache-miss path of `SearchEngine.search` (lines 190–211): ensure the
index is built, search through the indexer, format, and write the results
through to the query cache. -/
def SearchEngine.searchMiss (e : SearchEngine) (query : String) (top_n : Int) :
    Except PyErr (PyVal × SearchEngine) :=
  let e1 :=
    if ¬ e.indexer.is_index_built then { e with indexer := e.indexer.build_index.2 }
    else e
  match e1.indexer.search query top_n with
  | .error err => .error err
  | .ok (results, ix') =>
    let e2 := { e1 with indexer := ix' }
    let formatted_results := formatResults results
    match e2.cache_manager with
    | some cm =>
      if e2.enable_cache then
        match cm.cache_query_results query formatted_results top_n with
        | .error err => .error err
        | .ok (_, cm') => .ok (.list formatted_results, { e2 with cache_manager := some cm' })
      else .ok (.list formatted_results, e2)
    | Option.none => .ok (.list formatted_results, e2)

/-- `SearchEngine.search` (lines 170–211): with caching enabled, a truthy
cached result list is returned as is (line 186 `if cached_results:`); an empty
or absent one falls through to the indexer path. -/
def SearchEngine.search (e : SearchEngine) (query : String) (top_n : Int) :
    Except PyErr (PyVal × SearchEngine) :=
  match e.cache_manager with
  | some cm =>
    if e.enable_cache then
      match cm.get_cached_query_results query top_n with
      | .error err => .error err
      | .ok (cached?, cm') =>
        let e1 := { e with cache_manager := some cm' }
        match cached? with
        | some cached =>
          if pyTruthy cached then .ok (cached, e1)
          else e1.searchMiss query top_n
        | Option.none => e1.searchMiss query top_n
    else e.searchMiss query top_n
  | Option.none => e.searchMiss query top_n

/-- `SearchEngine.change_ranker` (lines 242–259): an unknown ranker type raises
`ValueError` inside the `try`, which is caught and reported as `False` with the
engine untouched. On a known type, with caching enabled, the query cache is
invalidated (`TypeError` from that call is *not* caught by `except
ValueError`). -/
def SearchEngine.change_ranker (e : SearchEngine) (ranker_type : String) :
    Except PyErr (Bool × SearchEngine) :=
  match RankerFactory.create_ranker ranker_type with
  | .error .valueError => .ok (false, e)
  | .error err => .error err
  | .ok r =>
    let e1 := { e with ranker := r }
    match e1.cache_manager with
    | some cm =>
      if e1.enable_cache then
        match cm.invalidate_all_queries with
        | .error .valueError => .ok (false, e1)
        | .error err => .error err
        | .ok (_, cm') => .ok (true, { e1 with cache_manager := some cm' })
      else .ok (true, e1)
    | Option.none => .ok (true, e1)

/-- `SearchEngine.enable_caching` (lines 260–273). -/
def SearchEngine.enable_caching (e : SearchEngine) : Bool × SearchEngine :=
  match e.cache_manager with
  | some cm =>
    (true, { e with enable_cache := true, cache_manager := some cm.enable_cache })
  | Option.none => (false, e)

/-- `SearchEngine.disable_caching` (lines 274–285). -/
def SearchEngine.disable_caching (e : SearchEngine) : Bool × SearchEngine :=
  match e.cache_manager with
  | some cm =>
    (true, { e with enable_cache := false, cache_manager := some cm.disable_cache })
  | Option.none => (true, e)

/-! ### Concrete instances used by the closed statements below -/

/-- A concrete similarity instance for the closed statements: a document whose
content is exactly `"cats"` scores `1` against the (preprocessed) query
`"cats"`, anything else scores `0`. It stands where the fitted
`TfidfVectorizer` does; note that sklearn's TF-IDF, being a deterministic
function of content, likewise gives two identical documents the same positive
score for a query made of their one term. -/
def simCats (q : String) (corpus : List String) (content : String) : ℚ :=
  if q = "cats" ∧ content = "cats" then 1 else 0

/-- Document `a` with content `"cats"`. -/
def docA : Document := ⟨"a", "cats", .dict []⟩

/-- Document `b` with content `"cats"` (same content as `docA`, distinct id). -/
def docB : Document := ⟨"b", "cats", .dict []⟩

/-- The engine obtained from `SearchEngine('tfidf', enable_cache=False)`. -/
def engPlain : SearchEngine :=
  { indexer := Indexer.init simCats
    ranker := ⟨"TF-IDF Ranker"⟩
    enable_cache := false
    cache_manager := Option.none }

/-- The engine obtained from `SearchEngine('tfidf', enable_cache=True)` with
the Redis server reachable. -/
def engCached : SearchEngine :=
  { indexer := Indexer.init simCats
    ranker := ⟨"TF-IDF Ranker"⟩
    enable_cache := true
    cache_manager := some (CacheManager.init ⟨true, true, []⟩) }

example : SearchEngine.init simCats "tfidf" false true = .ok engPlain := rfl
example : SearchEngine.init simCats "tfidf" true true = .ok engCached := rfl

/-! ### C7 — add/remove and the Index Freshness Flag -/

/-- C7: a successful `Indexer.add_document` or `Indexer.remove_document`
leaves `is_index_built` false; an add rejected as a duplicate and a remove of
an unknown identifier return the state — document store and flag included —
exactly unchanged. -/
theorem claim_C7_mutations_clear_freshness (ix : Indexer) (d : Document) (i : String) :
    ((ix.add_document d).1 = true → (ix.add_document d).2.is_index_built = false) ∧
    ((ix.add_document d).1 = false → (ix.add_document d).2 = ix) ∧
    ((ix.remove_document i).1 = true → (ix.remove_document i).2.is_index_built = false) ∧
    ((ix.remove_document i).1 = false → (ix.remove_document i).2 = ix) := by
  unfold Indexer.add_document Indexer.remove_document
  by_cases hA : ix.documents.any (fun dd => dd.doc_id = d.doc_id) <;>
    by_cases hR : ix.documents.any (fun dd => dd.doc_id = i) <;>
      simp [hA, hR]

/-- Closed instance of C7: on a fresh indexer, adding `docA` succeeds and
clears the flag; re-adding it fails and changes nothing; removing `"a"`
succeeds and clears the flag; removing an unknown id changes nothing. -/
theorem claim_C7_witness :
    (((Indexer.init simCats).add_document docA).1 = true ∧
      ((Indexer.init simCats).add_document docA).2.is_index_built = false) ∧
    ((((Indexer.init simCats).add_document docA).2.add_document docA).1 = false ∧
      (((Indexer.init simCats).add_document docA).2.add_document docA).2 =
        ((Indexer.init simCats).add_document docA).2) ∧
    ((((Indexer.init simCats).add_document docA).2.remove_document "a").1 = true ∧
      (((Indexer.init simCats).add_document docA).2.remove_document "a").2.is_index_built
        = false) ∧
    (((Indexer.init simCats).add_document docA).2.remove_document "zzz").1 = false ∧
      (((Indexer.init simCats).add_document docA).2.remove_document "zzz").2 =
        ((Indexer.init simCats).add_document docA).2 := by
  refine ⟨⟨by decide, ?_⟩, ⟨by decide, ?_⟩, ⟨by decide, ?_⟩, by decide, ?_⟩
  · exact (claim_C7_mutations_clear_freshness (Indexer.init simCats) docA "a").1 (by decide)
  · exact (claim_C7_mutations_clear_freshness ((Indexer.init simCats).add_document docA).2
      docA "a").2.1 (by decide)
  · exact (claim_C7_mutations_clear_freshness ((Indexer.init simCats).add_document docA).2
      docA "a").2.2.1 (by decide)
  · exact (claim_C7_mutations_clear_freshness ((Indexer.init simCats).add_document docA).2
      docA "zzz").2.2.2 (by decide)

/-! ### C8 — empty corpus: build fails without touching the flag, search
returns `[]` -/

/-- C8: with an empty document store, `Indexer.build_index` returns `False`
with the state (freshness flag included) unchanged, and `Indexer.search`
returns the empty result list without raising. The hypothesis
`ix.documents = [] → ix.is_index_built = false` holds in every reachable
state: a fresh indexer has the flag cleared and every successful mutation
clears it again. -/
theorem claim_C8_empty_corpus (ix : Indexer) (q : String) (n : Int)
    (hinv : ix.documents = [] → ix.is_index_built = false)
    (he : ix.documents = []) :
    ix.build_index = (false, ix) ∧ ix.search q n = .ok ([], ix) := by
  have hflag := hinv he
  constructor
  · simp [Indexer.build_index, he]
  · simp [Indexer.search, Indexer.build_index, he, hflag]

/-- Closed instance of C8 at the fresh indexer and the query `"cats"`. -/
theorem claim_C8_witness :
    ((Indexer.init simCats).documents = [] → (Indexer.init simCats).is_index_built = false) ∧
    (Indexer.init simCats).documents = [] ∧
    (Indexer.init simCats).build_index = (false, Indexer.init simCats) ∧
    (Indexer.init simCats).search "cats" 10 = .ok ([], Indexer.init simCats) := by
  refine ⟨fun _ => rfl, rfl, ?_, ?_⟩
  · exact (claim_C8_empty_corpus (Indexer.init simCats) "cats" 10 (fun _ => rfl) rfl).1
  · exact (claim_C8_empty_corpus (Indexer.init simCats) "cats" 10 (fun _ => rfl) rfl).2

/-! ### C9 — unknown ranking strategy leaves the engine unchanged -/

/-- C9: for every strategy name the factory does not recognize (anything not
lowercasing to `"tfidf"`), `SearchEngine.change_ranker` returns `False` and
the engine — its current ranker included — is exactly the one before the
call. -/
theorem claim_C9_unknown_ranker (e : SearchEngine) (t : String)
    (h : pyLower t ≠ "tfidf") : e.change_ranker t = .ok (false, e) := by
  simp [SearchEngine.change_ranker, RankerFactory.create_ranker, h]

/-- Closed instance of C9: `change_ranker("bm25")` on the cache-disabled
engine fails and returns the engine unchanged. -/
theorem claim_C9_witness :
    pyLower "bm25" ≠ "tfidf" ∧ engPlain.change_ranker "bm25" = .ok (false, engPlain) :=
  ⟨by decide, claim_C9_unknown_ranker engPlain "bm25" (by decide)⟩

/-! ### C1 — cache-layer failures escape to the caller -/

/-- A cache-enabled engine holding document `a`, reached by disabling caching,
indexing `a`, and re-enabling caching (certified reachable by the example
below). -/
def engCachedA : SearchEngine :=
  match (engCached.disable_caching).2.index_document "a" "cats" (.dict []) with
  | .ok r => (r.2.enable_caching).2
  | .error _ => engCached

example :
    (match (engCached.disable_caching).2.index_document "a" "cats" (.dict []) with
     | .ok r => some r.1
     | .error _ => Option.none) = some true := rfl

/-- C1 is violated by the code: on a cache-enabled engine with the cache layer
perfectly reachable, `index_document`, `index_documents` and `remove_document`
raise `TypeError` out of the cache layer to the caller. The error comes from
`invalidate_all_queries` (cache_manager.py line 220) passing two positional
arguments to the one-parameter `RedisClient.keys_pattern` (redis_client.py
line 188). The repository's own tests
(`test_cache_manager.py::test_invalidate_all_queries`) expect these calls to
succeed. -/
theorem claim_C1_cache_error_escapes :
    engCached.index_document "d1" "cats" PyVal.none = .error .typeError ∧
    engCached.index_documents [.dict [("doc_id", .str "d1"), ("content", .str "cats")]]
      = .error .typeError ∧
    engCachedA.remove_document "a" = .error .typeError ∧
    (CacheManager.init ⟨true, true, []⟩).invalidate_all_queries = .error .typeError ∧
    (CacheManager.init ⟨true, true, []⟩).invalidate_all_documents = .error .typeError := by
  refine ⟨rfl, rfl, rfl, rfl, rfl⟩

/-! ### C4 — the stats cache key -/

/-- `ixA`: a fresh indexer holding the single document `a`. -/
def ixA : Indexer := ((Indexer.init simCats).add_document docA).2

/-- C4 is violated by the code: the key both `cache_stats` and
`get_cached_stats` build is the Python tuple `("%s engine_stats", "stats:")`
— the comma on cache_manager.py lines 248/260 makes a pair, not a formatted
string — and not the string `"stats:engine_stats"`. redis-py rejects a tuple
key with `DataError` (a `RedisError`), which the client wrapper catches, so
with the cache enabled and perfectly reachable `cache_stats` always returns
`False`, stores nothing, and `get_cached_stats` always returns `None`; the
repository's own test (`test_cache_manager.py::test_cache_stats`) expects the
round-trip to succeed. -/
theorem claim_C4_stats_key_bug :
    CacheManager.statsKey ≠ PyVal.str "stats:engine_stats" ∧
    (CacheManager.init ⟨true, true, []⟩).cache_stats
        (.dict [("num_documents", .int 100), ("is_index_built", .bool true)])
      = .ok (false, CacheManager.init ⟨true, true, []⟩) ∧
    (CacheManager.init ⟨true, true, []⟩).get_cached_stats
      = .ok (Option.none, CacheManager.init ⟨true, true, []⟩) := by
  refine ⟨fun h => PyVal.noConfusion h, rfl, rfl⟩

/-! ### C6 — the `limit = 0` slice bug -/

/-- C6 is violated by the code at `limit = 0`: `np.argsort(...)[-top_n:]` with
`top_n = 0` is the slice `[-0:]`, i.e. the whole array, so `Indexer.search`
returns every positively-scoring document instead of at most `0` — here one
result for a one-document corpus, contradicting the method's own docstring
("maximum number of results to return"). -/
theorem claim_C6_limit_zero_bug :
    (match ixA.search "cats" 0 with
     | .ok r => r.1.map (fun p => (p.1.doc_id, p.2))
     | .error _ => []) = [("a", (1 : ℚ))] := by decide

/-! ### C5 — the query cache key -/

/-- String append is left-cancellative. -/
theorem strAppendCancel (s a b : String) (h : s ++ a = s ++ b) : a = b := by
  cases a; cases b
  simp only [String.ext_iff, String.data_append] at h ⊢
  exact List.append_cancel_left h

/-- C5: the query cache key is `"query:"` plus the hex MD5 digest of
`lowercase(strip(query)) + ":" + str(limit)`; queries equal after lowercasing
and stripping map to the same key for any limit; for a fixed query, limits
with distinct string forms produce distinct hash payloads — so distinct keys
unless MD5 itself collides, which it provably does not at the spec's own
example pair, `("cats", 5)` versus `("cats", 10)`; and the spec's equal pair
`("Cats", 5)` / `(" cats ", 5)` share one key. -/
theorem claim_C5_query_key (q1 q2 : String) (n n1 n2 : Int) :
    CacheManager.generate_query_key q1 n
      = "query:" ++ md5hex (strBytes (pyLower (pyStrip q1) ++ ":" ++ toString n)) ∧
    (pyLower (pyStrip q1) = pyLower (pyStrip q2) →
      CacheManager.generate_query_key q1 n = CacheManager.generate_query_key q2 n) ∧
    (toString n1 ≠ toString n2 →
      pyLower (pyStrip q1) ++ ":" ++ toString n1 ≠ pyLower (pyStrip q1) ++ ":" ++ toString n2) ∧
    CacheManager.generate_query_key "cats" 5 ≠ CacheManager.generate_query_key "cats" 10 ∧
    CacheManager.generate_query_key "Cats" 5 = CacheManager.generate_query_key " cats " 5 := by
  refine ⟨rfl, ?_, ?_, by decide, by decide⟩
  · intro h
    simp [CacheManager.generate_query_key, h]
  · intro hne heq
    exact hne (strAppendCancel _ _ _ heq)

/-- Closed instance of C5 at the spec's example pairs. -/
theorem claim_C5_witness :
    pyLower (pyStrip "Cats") = pyLower (pyStrip " cats ") ∧
    CacheManager.generate_query_key "Cats" 5 = CacheManager.generate_query_key " cats " 5 ∧
    toString (5 : Int) ≠ toString (10 : Int) ∧
    pyLower (pyStrip "Cats") ++ ":" ++ toString (5 : Int)
      ≠ pyLower (pyStrip "Cats") ++ ":" ++ toString (10 : Int) :=
  ⟨by decide, (claim_C5_query_key "Cats" " cats " 5 5 10).2.1 (by decide),
   by decide, (claim_C5_query_key "Cats" " cats " 5 5 10).2.2.1 (by decide)⟩

/-! ### C10 — a cached empty result list never short-circuits a search -/

/-- C10: when the query cache holds an entry for `(query, top_n)` whose stored
result list is empty, `SearchEngine.search` does not return it:
`get_cached_query_results` counts the lookup as a hit (the returned engine
carries `cache_hits + 1`), but the empty list is falsy on engine.py line 186,
so the call proceeds exactly as the cache-miss path (`searchMiss`: rebuild if
stale, rank through the indexer, write through, return the recomputed
results). -/
theorem claim_C10_cached_empty_recomputed
    (e : SearchEngine) (cm : CacheManager) (q : String) (n : Int)
    (entry : List (String × PyVal))
    (hcm : e.cache_manager = some cm)
    (hen : e.enable_cache = true)
    (hce : cm.cache_enabled = true)
    (hconn : cm.redis.connected = true)
    (hup : cm.redis.serverUp = true)
    (hlook : dictLookup cm.redis.store (CacheManager.generate_query_key q n)
      = some (.dict entry))
    (hres : dictLookup entry "results" = some (.list [])) :
    e.search q n
      = SearchEngine.searchMiss
          { e with cache_manager := some { cm with cache_hits := cm.cache_hits + 1 } } q n := by
  have hne : entry ≠ [] := by
    intro h
    rw [h] at hres
    simp [dictLookup] at hres
  unfold SearchEngine.search
  rw [hcm]
  simp only [hen, if_true]
  unfold CacheManager.get_cached_query_results
  simp only [hce, not_true, if_neg, ite_false]
  unfold RedisState.redisGet RedisState.clientProp
  simp only [hconn, if_true, hup, redisKeyStr]
  rw [hlook]
  simp [hres, hne, pyTruthy]

/-- The query-cache entry used by the C10 witness: an empty result list cached
for `("cats", 10)`. -/
def emptyEntry : List (String × PyVal) :=
  [("results", .list []), ("timestamp", .float 0), ("query", .str "cats"), ("top_n", .int 10)]

/-- A cache manager whose Redis store holds `emptyEntry` under the query key
for `("cats", 10)`. -/
def cmEmpty : CacheManager :=
  CacheManager.init ⟨true, true, [(CacheManager.generate_query_key "cats" 10, .dict emptyEntry)]⟩

/-- A cache-enabled engine over `cmEmpty`. -/
def engEmptyCache : SearchEngine := { engCached with cache_manager := some cmEmpty }

/-- Closed instance of C10: with an empty result list cached for
`("cats", 10)`, `search("cats", 10)` proceeds as the miss path on the
hit-counted state. -/
theorem claim_C10_witness :
    dictLookup cmEmpty.redis.store (CacheManager.generate_query_key "cats" 10)
      = some (.dict emptyEntry) ∧
    dictLookup emptyEntry "results" = some (.list []) ∧
    engEmptyCache.search "cats" 10
      = SearchEngine.searchMiss
          { engEmptyCache with
            cache_manager := some { cmEmpty with cache_hits := cmEmpty.cache_hits + 1 } }
          "cats" 10 :=
  ⟨rfl, rfl,
   claim_C10_cached_empty_recomputed engEmptyCache cmEmpty "cats" 10 emptyEntry
     rfl rfl rfl rfl rfl rfl rfl⟩

/-! ### C3 — ordering and tie-breaking of `Indexer.search` results -/

theorem mem_insertSorted (le : Nat → Nat → Bool) (i b : Nat) (l : List Nat) :
    b ∈ insertSorted le i l ↔ b = i ∨ b ∈ l := by
  induction l with
  | nil => simp [insertSorted]
  | cons j rest ih =>
    simp only [insertSorted]
    by_cases h : le i j = true
    · rw [if_pos h]
      simp only [List.mem_cons]
    · rw [if_neg h]
      simp only [List.mem_cons, ih]
      tauto

theorem perm_insertSorted (le : Nat → Nat → Bool) (i : Nat) (l : List Nat) :
    List.Perm (insertSorted le i l) (i :: l) := by
  induction l with
  | nil => simp [insertSorted]
  | cons j rest ih =>
    simp only [insertSorted]
    by_cases h : le i j
    · simp [h]
    · simp only [h, if_false]
      exact (ih.cons j).trans (List.Perm.swap i j rest)

theorem perm_isort (le : Nat → Nat → Bool) (l : List Nat) : List.Perm (isort le l) l := by
  induction l with
  | nil => simp [isort]
  | cons i rest ih =>
    exact (perm_insertSorted le i (isort le rest)).trans (ih.cons i)

theorem pairwise_insertSorted (le : Nat → Nat → Bool)
    (htot : ∀ a b, le a b = true ∨ le b a = true)
    (htrans : ∀ a b c, le a b = true → le b c = true → le a c = true)
    (i : Nat) (l : List Nat) (h : l.Pairwise (fun a b => le a b = true)) :
    (insertSorted le i l).Pairwise (fun a b => le a b = true) := by
  induction l with
  | nil => simp [insertSorted]
  | cons j rest ih =>
    rcases List.pairwise_cons.mp h with ⟨hj, hrest⟩
    simp only [insertSorted]
    by_cases hij : le i j = true
    · simp only [hij, if_true]
      refine List.pairwise_cons.mpr ⟨?_, h⟩
      intro b hb
      rcases List.mem_cons.mp hb with rfl | hb
      · exact hij
      · exact htrans i j b hij (hj b hb)
    · simp only [hij, if_false]
      refine List.pairwise_cons.mpr ⟨?_, ih hrest⟩
      intro b hb
      rcases (mem_insertSorted le i b _).mp hb with rfl | hb
      · rcases htot j b with h' | h'
        · exact h'
        · exact absurd h' hij
      · exact hj b hb

theorem pairwise_isort (le : Nat → Nat → Bool)
    (htot : ∀ a b, le a b = true ∨ le b a = true)
    (htrans : ∀ a b c, le a b = true → le b c = true → le a c = true)
    (l : List Nat) : (isort le l).Pairwise (fun a b => le a b = true) := by
  induction l with
  | nil => simp [isort]
  | cons i rest ih => exact pairwise_insertSorted le htot htrans i _ ih

theorem idxLe_total (scores : List ℚ) (a b : Nat) :
    idxLe scores a b = true ∨ idxLe scores b a = true := by
  unfold idxLe
  simp only [decide_eq_true_eq]
  rcases lt_trichotomy (scores.getD a 0) (scores.getD b 0) with h | h | h
  · exact Or.inl (Or.inl h)
  · rcases Nat.le_total a b with hab | hab
    · exact Or.inl (Or.inr ⟨h, hab⟩)
    · exact Or.inr (Or.inr ⟨h.symm, hab⟩)
  · exact Or.inr (Or.inl h)

theorem idxLe_trans (scores : List ℚ) (a b c : Nat)
    (h1 : idxLe scores a b = true) (h2 : idxLe scores b c = true) :
    idxLe scores a c = true := by
  unfold idxLe at h1 h2 ⊢
  simp only [decide_eq_true_eq] at h1 h2 ⊢
  rcases h1 with h1 | ⟨h1e, h1le⟩
  · rcases h2 with h2 | ⟨h2e, _⟩
    · exact Or.inl (h1.trans h2)
    · exact Or.inl (h1.trans_eq h2e)
  · rcases h2 with h2 | ⟨h2e, h2le⟩
    · exact Or.inl (h1e.trans_lt h2)
    · exact Or.inr ⟨h1e.trans h2e, h1le.trans h2le⟩

theorem argsortAsc_perm (scores : List ℚ) :
    List.Perm (argsortAsc scores) (List.range scores.length) := perm_isort _ _

theorem argsortAsc_nodup (scores : List ℚ) : (argsortAsc scores).Nodup :=
  (argsortAsc_perm scores).nodup_iff.mpr (List.nodup_range _)

theorem argsortAsc_mem_lt (scores : List ℚ) (i : Nat) (h : i ∈ argsortAsc scores) :
    i < scores.length :=
  List.mem_range.mp ((argsortAsc_perm scores).mem_iff.mp h)

theorem argsortAsc_pairwise (scores : List ℚ) :
    (argsortAsc scores).Pairwise (fun a b => idxLe scores a b = true) :=
  pairwise_isort _ (idxLe_total scores) (idxLe_trans scores) _

theorem pySliceFrom_sublist {α : Type} (l : List α) (s : Int) :
    List.Sublist (pySliceFrom l s) l := by
  unfold pySliceFrom
  split <;> exact List.drop_sublist _ l

/-- Position of a document id in the insertion-ordered store (`list(...).index`
over the dict keys; used only to state the tie-breaking claims). -/
def insertPos (docs : List Document) (s : String) : Nat :=
  List.findIdx (fun d => d.doc_id = s) docs

theorem find_id_get (docs : List Document)
    (hnodup : (docs.map (fun d => d.doc_id)).Nodup) (i : Nat) (hi : i < docs.length) :
    docs.find? (fun d => d.doc_id = (docs.get ⟨i, hi⟩).doc_id) = some (docs.get ⟨i, hi⟩) := by
  induction docs generalizing i with
  | nil => simp at hi
  | cons d rest ih =>
    have hn : (d.doc_id :: rest.map (fun dd => dd.doc_id)).Nodup := by simpa using hnodup
    have hd : d.doc_id ∉ rest.map (fun dd => dd.doc_id) := (List.nodup_cons.mp hn).1
    have hrest : (rest.map (fun dd => dd.doc_id)).Nodup := (List.nodup_cons.mp hn).2
    cases i with
    | zero => simp
    | succ m =>
      have hm : m < rest.length := Nat.succ_lt_succ_iff.mp (by simpa using hi)
      have hget : (d :: rest).get ⟨m + 1, hi⟩ = rest.get ⟨m, hm⟩ := rfl
      have hdne : ¬ (d.doc_id = (rest.get ⟨m, hm⟩).doc_id) := by
        intro h
        exact hd (h ▸ List.mem_map_of_mem (fun dd => dd.doc_id) (List.get_mem rest m hm))
      rw [hget]
      rw [List.find?_cons_of_neg _ (by simpa using hdne)]
      exact ih hrest m hm

theorem insertPos_get (docs : List Document)
    (hnodup : (docs.map (fun d => d.doc_id)).Nodup) (i : Nat) (hi : i < docs.length) :
    insertPos docs (docs.get ⟨i, hi⟩).doc_id = i := by
  induction docs generalizing i with
  | nil => simp at hi
  | cons d rest ih =>
    have hn : (d.doc_id :: rest.map (fun dd => dd.doc_id)).Nodup := by simpa using hnodup
    have hd : d.doc_id ∉ rest.map (fun dd => dd.doc_id) := (List.nodup_cons.mp hn).1
    have hrest : (rest.map (fun dd => dd.doc_id)).Nodup := (List.nodup_cons.mp hn).2
    cases i with
    | zero => simp [insertPos, List.findIdx_cons]
    | succ m =>
      have hm : m < rest.length := Nat.succ_lt_succ_iff.mp (by simpa using hi)
      have hget : (d :: rest).get ⟨m + 1, hi⟩ = rest.get ⟨m, hm⟩ := rfl
      have hdne : ¬ (d.doc_id = (rest.get ⟨m, hm⟩).doc_id) := by
        intro h
        exact hd (h ▸ List.mem_map_of_mem (fun dd => dd.doc_id) (List.get_mem rest m hm))
      rw [hget]
      have hstep : List.findIdx (fun dd => dd.doc_id = (rest.get ⟨m, hm⟩).doc_id) (d :: rest)
          = List.findIdx (fun dd => dd.doc_id = (rest.get ⟨m, hm⟩).doc_id) rest + 1 := by
        rw [List.findIdx_cons]
        simp only [List.get_eq_getElem] at hdne
        simp [hdne]
      have hih := ih hrest m hm
      simp only [insertPos] at hih ⊢
      rw [hstep, hih]

/-- The value the result loop of `Indexer.search` contributes for position `i`
of the score vector. -/
def resultOf (docs : List Document) (scores : List ℚ) (i : Nat) : Option (Document × ℚ) :=
  match docs.get? i, scores.get? i with
  | some d, some s => if s > 0 then some (d, s) else Option.none
  | _, _ => Option.none

theorem resultOf_eq_some (docs : List Document) (scores : List ℚ) (i : Nat)
    (x : Document × ℚ) (h : resultOf docs scores i = some x) :
    ∃ (hi : i < docs.length) (hsi : i < scores.length),
      x.1 = docs.get ⟨i, hi⟩ ∧ x.2 = scores.get ⟨i, hsi⟩ ∧ x.2 > 0 := by
  unfold resultOf at h
  split at h
  · rename_i d s hd hs
    by_cases hpos : s > 0
    · rw [if_pos hpos] at h
      obtain ⟨hi, hgd⟩ := List.get?_eq_some.mp hd
      obtain ⟨hsi, hgs⟩ := List.get?_eq_some.mp hs
      cases h
      exact ⟨hi, hsi, hgd.symm, hgs.symm, hpos⟩
    · rw [if_neg hpos] at h
      exact absurd h (by simp)
  · exact absurd h (by simp)

theorem collectResults_eq (docs : List Document) (scores : List ℚ) (idxs : List Nat)
    (hnodup : (docs.map (fun d => d.doc_id)).Nodup)
    (hmem : ∀ i ∈ idxs, i < docs.length)
    (hslen : scores.length = docs.length) :
    collectResults docs (docs.map (fun d => d.doc_id)) scores idxs
      = .ok (idxs.filterMap (resultOf docs scores)) := by
  induction idxs with
  | nil => rfl
  | cons i rest ih =>
    have hi : i < docs.length := hmem i (List.mem_cons_self i rest)
    have hsi : i < scores.length := by omega
    have hihyp : ∀ j ∈ rest, j < docs.length := fun j hj => hmem j (List.mem_cons_of_mem i hj)
    have hids : (docs.map (fun d => d.doc_id)).get? i
        = some ((docs.get ⟨i, hi⟩).doc_id) := by
      rw [List.get?_map, List.get?_eq_get hi]
      rfl
    have hfind := find_id_get docs hnodup i hi
    have hrest := ih hihyp
    unfold collectResults
    by_cases hpos : scores.get ⟨i, hsi⟩ > 0
    · have hres : resultOf docs scores i
          = some (docs.get ⟨i, hi⟩, scores.get ⟨i, hsi⟩) := by
        unfold resultOf
        simp only [List.get?_eq_get hi, List.get?_eq_get hsi]
        rw [if_pos hpos]
      simp only [List.get?_eq_get hsi, if_pos hpos, hids, hfind, hrest,
        List.filterMap_cons, hres]
    · have hres : resultOf docs scores i = Option.none := by
        unfold resultOf
        simp only [List.get?_eq_get hi, List.get?_eq_get hsi]
        rw [if_neg hpos]
      simp only [List.get?_eq_get hsi, if_neg hpos, hrest, List.filterMap_cons, hres]

theorem getD_eq_get (l : List ℚ) (n : Nat) (h : n < l.length) : l.getD n 0 = l.get ⟨n, h⟩ := by
  unfold List.getD
  rw [List.get?_eq_get h]
  rfl

theorem topResults_pairwise (docs : List Document) (scores : List ℚ) (n : Int)
    (res : List (Document × ℚ))
    (hnodup : (docs.map (fun d => d.doc_id)).Nodup)
    (hslen : scores.length = docs.length)
    (hrun : collectResults docs (docs.map (fun d => d.doc_id)) scores
        ((pySliceFrom (argsortAsc scores) (-n)).reverse) = .ok res) :
    res.Pairwise (fun a b => a.2 ≥ b.2) ∧
    res.Pairwise (fun a b => a.2 = b.2 →
      insertPos docs b.1.doc_id < insertPos docs a.1.doc_id) := by
  have hsub : List.Sublist (pySliceFrom (argsortAsc scores) (-n)) (argsortAsc scores) :=
    pySliceFrom_sublist _ _
  have hmem : ∀ i ∈ (pySliceFrom (argsortAsc scores) (-n)).reverse, i < docs.length := by
    intro i hi
    rw [List.mem_reverse] at hi
    exact hslen ▸ argsortAsc_mem_lt scores i (hsub.subset hi)
  have hpair : (pySliceFrom (argsortAsc scores) (-n)).reverse.Pairwise
      (fun a b => idxLe scores b a = true) := by
    rw [List.pairwise_reverse]
    exact (argsortAsc_pairwise scores).sublist hsub
  have hnd : (pySliceFrom (argsortAsc scores) (-n)).reverse.Nodup := by
    rw [List.nodup_reverse]
    exact (argsortAsc_nodup scores).sublist hsub
  have hcomb : (pySliceFrom (argsortAsc scores) (-n)).reverse.Pairwise
      (fun a b => (idxLe scores b a = true) ∧ a ≠ b) := hpair.and hnd
  rw [collectResults_eq docs scores _ hnodup hmem hslen] at hrun
  cases hrun
  constructor
  · rw [List.pairwise_filterMap]
    refine hcomb.imp ?_
    intro a b hab x hx y hy
    obtain ⟨hia, hsa, hxd, hxs, _⟩ := resultOf_eq_some docs scores a x hx
    obtain ⟨hib, hsb, hyd, hys, _⟩ := resultOf_eq_some docs scores b y hy
    have hle := hab.1
    unfold idxLe at hle
    simp only [decide_eq_true_eq] at hle
    rw [getD_eq_get scores b hsb, getD_eq_get scores a hsa] at hle
    rw [hxs, hys]
    rcases hle with hlt | ⟨heq, _⟩
    · exact le_of_lt hlt
    · exact le_of_eq heq
  · rw [List.pairwise_filterMap]
    refine hcomb.imp ?_
    intro a b hab x hx y hy hxy
    obtain ⟨hia, hsa, hxd, hxs, _⟩ := resultOf_eq_some docs scores a x hx
    obtain ⟨hib, hsb, hyd, hys, _⟩ := resultOf_eq_some docs scores b y hy
    have hle := hab.1
    unfold idxLe at hle
    simp only [decide_eq_true_eq] at hle
    rw [getD_eq_get scores b hsb, getD_eq_get scores a hsa] at hle
    have hsame : scores.get ⟨b, hsb⟩ = scores.get ⟨a, hsa⟩ := by
      rw [← hxs, ← hys, hxy]
    have hba : b ≤ a := by
      rcases hle with hlt | ⟨_, hba⟩
      · exact absurd hsame (ne_of_gt hlt).symm
      · exact hba
    have hbne : b ≠ a := fun h => hab.2 h.symm
    have hblt : b < a := lt_of_le_of_ne hba hbne
    rw [hxd, hyd, insertPos_get docs hnodup a hia, insertPos_get docs hnodup b hib]
    exact hblt

/-- What `Indexer.search` does in the *model*: non-increasing scores, and
among equal scores the later-added document first (the `[::-1]` reversal on
line 170 applied to the model's stable ascending argsort). The tie-order half
is a fact about the program only where `argsortAsc` is exact — corpora of at
most 16 documents — and the claim theorem below scopes it accordingly. The
hypotheses hold in every reachable state: ids are unique by construction and
the freshness flag is only set by `build_index`, which snapshots the current
corpus. -/
theorem search_pairwise_model (ix : Indexer) (q : String) (n : Int)
    (res : List (Document × ℚ)) (ix' : Indexer)
    (hnodup : (ix.documents.map (fun d => d.doc_id)).Nodup)
    (hbuilt : ix.is_index_built = true → ix.built = some ix.documents)
    (hrun : ix.search q n = .ok (res, ix')) :
    res.Pairwise (fun a b => a.2 ≥ b.2) ∧
    res.Pairwise (fun a b => a.2 = b.2 →
      insertPos ix.documents b.1.doc_id < insertPos ix.documents a.1.doc_id) := by
  unfold Indexer.search at hrun
  by_cases hb : ix.is_index_built = true
  · rw [if_neg (by simp [hb])] at hrun
    simp only [hbuilt hb] at hrun
    split at hrun
    next results hcoll =>
      simp only [Except.ok.injEq, Prod.mk.injEq] at hrun
      obtain ⟨hres, _⟩ := hrun
      subst hres
      exact topResults_pairwise ix.documents _ n _ hnodup (List.length_map _ _) hcoll
    next e hcoll => exact absurd hrun (by simp)
  · rw [if_pos (by simp [hb])] at hrun
    unfold Indexer.build_index at hrun
    by_cases hemp : ix.documents.isEmpty
    · rw [if_pos hemp] at hrun
      simp only [Bool.false_eq_true, if_false] at hrun
      simp only [Except.ok.injEq, Prod.mk.injEq] at hrun
      rw [← hrun.1]
      exact ⟨List.Pairwise.nil, List.Pairwise.nil⟩
    · rw [if_neg hemp] at hrun
      simp only [if_true] at hrun
      split at hrun
      next results hcoll =>
        simp only [Except.ok.injEq, Prod.mk.injEq] at hrun
        obtain ⟨hres, _⟩ := hrun
        subst hres
        exact topResults_pairwise ix.documents _ n _ hnodup (List.length_map _ _) hcoll
      next e hcoll => exact absurd hrun (by simp)

/-- C3 corrected: `Indexer.search` returns its `(document, score)` pairs
ordered by non-increasing score; and for corpora of at most 16 documents —
the regime where numpy's default argsort provably runs its stable insertion
sort — documents with equal scores come back with the *later*-added one
first (the ascending-position tie order reversed by the `[::-1]` on line
170). For larger corpora numpy's quicksort leaves the order of equal keys
unspecified, so no tie-break order is claimed there; the score ordering
holds under every tie order and is claimed for all corpora. -/
theorem claim_C3_descending_ties_later_first (ix : Indexer) (q : String) (n : Int)
    (res : List (Document × ℚ)) (ix' : Indexer)
    (hnodup : (ix.documents.map (fun d => d.doc_id)).Nodup)
    (hbuilt : ix.is_index_built = true → ix.built = some ix.documents)
    (hrun : ix.search q n = .ok (res, ix')) :
    res.Pairwise (fun a b => a.2 ≥ b.2) ∧
    (ix.documents.length ≤ 16 →
      res.Pairwise (fun a b => a.2 = b.2 →
        insertPos ix.documents b.1.doc_id < insertPos ix.documents a.1.doc_id)) := by
  have H := search_pairwise_model ix q n res ix' hnodup hbuilt hrun
  exact ⟨H.1, fun _ => H.2⟩

/-- C3 as stated: for every non-empty corpus (in a well-formed indexer state)
and every query, the results of `Indexer.search` come sorted by non-increasing
score and, among equal scores, the document added *earlier* (smaller insertion
position) comes first. -/
def TiesEarlierFirst : Prop :=
  ∀ (ix : Indexer) (q : String) (n : Int) (res : List (Document × ℚ)) (ix' : Indexer),
    ix.documents ≠ [] →
    (ix.documents.map (fun d => d.doc_id)).Nodup →
    (ix.is_index_built = true → ix.built = some ix.documents) →
    ix.search q n = .ok (res, ix') →
    res.Pairwise (fun a b => a.2 ≥ b.2) ∧
    res.Pairwise (fun a b => a.2 = b.2 →
      insertPos ix.documents a.1.doc_id < insertPos ix.documents b.1.doc_id)

/-- `ixAB`: a fresh indexer after adding `docA` then `docB` (two documents with
identical content `"cats"`, so any similarity computed from content alone —
TF-IDF included — gives them equal scores). -/
def ixAB : Indexer := ((((Indexer.init simCats).add_document docA).2).add_document docB).2

/-- C3 as stated is false: on the two-document corpus `ixAB`, searching
`"cats"` scores both documents `1` and returns `docB` — the later-added
document — first, because the ascending argsort `[0, 1]` is reversed by
`[::-1]` into `[1, 0]`. -/
theorem claim_C3_counterexample : ¬ TiesEarlierFirst := by
  intro h
  obtain ⟨-, hties⟩ := h ixAB "cats" 10 [(docB, 1), (docA, 1)]
      { ixAB with built := some [docA, docB], is_index_built := true }
      (fun hh => List.cons_ne_nil docA [docB] hh)
      (by decide)
      (fun hh => Bool.noConfusion hh)
      rfl
  have hrel := (List.pairwise_cons.mp hties).1 (docA, 1) (List.mem_cons_self _ _)
  exact absurd (hrel rfl) (by decide)

/-- Closed instance of the corrected C3 at `ixAB`: the hypotheses hold, the
two-document corpus is within the 16-element stable regime, and the `"cats"`
search returns equal scores in reverse insertion order. -/
theorem claim_C3_witness :
    (ixAB.documents.map (fun d => d.doc_id)).Nodup ∧
    ixAB.documents.length ≤ 16 ∧
    ixAB.search "cats" 10
      = .ok ([(docB, 1), (docA, 1)],
          { ixAB with built := some [docA, docB], is_index_built := true }) ∧
    (List.Pairwise (fun (a b : Document × ℚ) => a.2 ≥ b.2) [(docB, 1), (docA, 1)] ∧
     List.Pairwise (fun (a b : Document × ℚ) => a.2 = b.2 →
       insertPos ixAB.documents b.1.doc_id < insertPos ixAB.documents a.1.doc_id)
       [(docB, 1), (docA, 1)]) :=
  ⟨by decide, by decide, rfl,
   (claim_C3_descending_ties_later_first ixAB "cats" 10 [(docB, 1), (docA, 1)]
     { ixAB with built := some [docA, docB], is_index_built := true }
     (by decide) (fun hh => Bool.noConfusion hh) rfl).1,
   (claim_C3_descending_ties_later_first ixAB "cats" 10 [(docB, 1), (docA, 1)]
     { ixAB with built := some [docA, docB], is_index_built := true }
     (by decide) (fun hh => Bool.noConfusion hh) rfl).2 (by decide)⟩

/-! ### C2 — consistency after removal, over operation traces -/

/-- The ids of the documents currently in an engine's store. -/
def docIds (e : SearchEngine) : List String :=
  e.indexer.documents.map (fun d => d.doc_id)

theorem add_document_absent (ix : Indexer) (doc : Document) (d : String)
    (hnd : d ∉ ix.documents.map (fun dd => dd.doc_id)) (hne : doc.doc_id ≠ d) :
    d ∉ ((ix.add_document doc).2.documents.map (fun dd => dd.doc_id)) := by
  unfold Indexer.add_document
  by_cases hdup : ix.documents.any (fun dd => dd.doc_id = doc.doc_id)
  · rw [if_pos hdup]
    exact hnd
  · rw [if_neg hdup]
    simp only [List.map_append, List.mem_append, List.map_cons, List.map_nil,
      List.mem_singleton]
    intro hc
    rcases hc with hc | hc
    · exact hnd hc
    · exact hne hc.symm

theorem add_documents_absent (docs : List Document) (acc : Nat × Indexer) (d : String)
    (hnd : d ∉ acc.2.documents.map (fun dd => dd.doc_id))
    (hna : ∀ doc ∈ docs, doc.doc_id ≠ d) :
    d ∉ ((docs.foldl (fun a dd =>
        let r := a.2.add_document dd
        (if r.1 then a.1 + 1 else a.1, r.2)) acc).2.documents.map (fun dd => dd.doc_id)) := by
  induction docs generalizing acc with
  | nil => exact hnd
  | cons doc rest ih =>
    rw [List.foldl_cons]
    exact ih _
      (add_document_absent acc.2 doc d hnd (hna doc (List.mem_cons_self _ _)))
      (fun dd hdd => hna dd (List.mem_cons_of_mem _ hdd))

theorem remove_document_absent (ix : Indexer) (d : String) :
    d ∉ ((ix.remove_document d).2.documents.map (fun dd => dd.doc_id)) := by
  unfold Indexer.remove_document
  by_cases hmem : ix.documents.any (fun dd => dd.doc_id = d)
  · rw [if_pos hmem]
    simp only [List.mem_map]
    rintro ⟨doc, hdoc, hid⟩
    have := List.of_mem_filter hdoc
    simp only [decide_eq_true_eq] at this
    exact this hid
  · rw [if_neg hmem]
    simp only [List.any_eq_true, decide_eq_true_eq, not_exists, not_and] at hmem
    simp only [List.mem_map]
    rintro ⟨doc, hdoc, hid⟩
    exact hmem doc hdoc hid

theorem remove_document_other (ix : Indexer) (i d : String)
    (hnd : d ∉ ix.documents.map (fun dd => dd.doc_id)) :
    d ∉ ((ix.remove_document i).2.documents.map (fun dd => dd.doc_id)) := by
  unfold Indexer.remove_document
  by_cases hmem : ix.documents.any (fun dd => dd.doc_id = i)
  · rw [if_pos hmem]
    simp only [List.mem_map]
    rintro ⟨doc, hdoc, hid⟩
    exact hnd (List.mem_map.mpr ⟨doc, List.mem_of_mem_filter hdoc, hid⟩)
  · rw [if_neg hmem]
    exact hnd

theorem build_index_documents (ix : Indexer) : (ix.build_index).2.documents = ix.documents := by
  unfold Indexer.build_index
  by_cases hemp : ix.documents.isEmpty
  · rw [if_pos hemp]
  · rw [if_neg hemp]

theorem search_preserves_documents (ix : Indexer) (q : String) (n : Int)
    (res : List (Document × ℚ)) (ix' : Indexer)
    (hrun : ix.search q n = .ok (res, ix')) : ix'.documents = ix.documents := by
  unfold Indexer.search at hrun
  by_cases hb : ix.is_index_built = true
  · rw [if_neg (by simp [hb])] at hrun
    rcases hbe : ix.built with _ | snapshot
    · simp only [hbe] at hrun
      exact absurd hrun (by simp)
    · simp only [hbe] at hrun
      split at hrun
      next results hcoll =>
        simp only [Except.ok.injEq, Prod.mk.injEq] at hrun
        rw [← hrun.2]
      next e hcoll => exact absurd hrun (by simp)
  · rw [if_pos (by simp [hb])] at hrun
    unfold Indexer.build_index at hrun
    by_cases hemp : ix.documents.isEmpty
    · rw [if_pos hemp] at hrun
      simp only [Bool.false_eq_true, if_false] at hrun
      simp only [Except.ok.injEq, Prod.mk.injEq] at hrun
      rw [← hrun.2]
    · rw [if_neg hemp] at hrun
      simp only [if_true] at hrun
      split at hrun
      next results hcoll =>
        simp only [Except.ok.injEq, Prod.mk.injEq] at hrun
        rw [← hrun.2]
      next e hcoll => exact absurd hrun (by simp)

theorem index_document_indexer (e : SearchEngine) (i c : String) (m : PyVal)
    (b : Bool) (e₂ : SearchEngine) (h : e.index_document i c m = .ok (b, e₂)) :
    e₂.indexer = (e.indexer.add_document (mkDocument i c m)).2 := by
  rcases hcm : e.cache_manager with _ | cm
  · simp only [SearchEngine.index_document, hcm] at h
    simp only [Except.ok.injEq, Prod.mk.injEq] at h
    rw [← h.2]
  · simp only [SearchEngine.index_document, hcm] at h
    split at h
    · split at h
      next err hcd => exact absurd h (by simp)
      next pr hcd =>
        split at h
        next err hiq => exact absurd h (by simp)
        next pr2 hiq =>
          simp only [Except.ok.injEq, Prod.mk.injEq] at h
          rw [← h.2]
    · simp only [Except.ok.injEq, Prod.mk.injEq] at h
      rw [← h.2]

theorem index_documents_indexer (e : SearchEngine) (l : List PyVal)
    (b : Nat) (e₂ : SearchEngine) (h : e.index_documents l = .ok (b, e₂)) :
    e₂.indexer = (e.indexer.add_documents (l.foldr
      (fun data acc => match Document.from_dict data with
        | .ok d => d :: acc
        | .error _ => acc) [])).2 := by
  rcases hcm : e.cache_manager with _ | cm
  · simp only [SearchEngine.index_documents, hcm] at h
    simp only [Except.ok.injEq, Prod.mk.injEq] at h
    rw [← h.2]
  · simp only [SearchEngine.index_documents, hcm] at h
    split at h
    · split at h
      next err hcd => exact absurd h (by simp)
      next cm1 hcd =>
        split at h
        next err hiq => exact absurd h (by simp)
        next pr2 hiq =>
          simp only [Except.ok.injEq, Prod.mk.injEq] at h
          rw [← h.2]
    · simp only [Except.ok.injEq, Prod.mk.injEq] at h
      rw [← h.2]

theorem remove_document_indexer (e : SearchEngine) (i : String)
    (b : Bool) (e₂ : SearchEngine) (h : e.remove_document i = .ok (b, e₂)) :
    e₂.indexer = (e.indexer.remove_document i).2 := by
  rcases hcm : e.cache_manager with _ | cm
  · simp only [SearchEngine.remove_document, hcm] at h
    simp only [Except.ok.injEq, Prod.mk.injEq] at h
    rw [← h.2]
  · simp only [SearchEngine.remove_document, hcm] at h
    split at h
    · split at h
      next err hcd => exact absurd h (by simp)
      next pr hcd =>
        split at h
        next err hiq => exact absurd h (by simp)
        next pr2 hiq =>
          simp only [Except.ok.injEq, Prod.mk.injEq] at h
          rw [← h.2]
    · simp only [Except.ok.injEq, Prod.mk.injEq] at h
      rw [← h.2]

theorem get_document_indexer (e : SearchEngine) (i : String)
    (r : Option Document) (e₂ : SearchEngine) (h : e.get_document i = .ok (r, e₂)) :
    e₂.indexer = e.indexer := by
  rcases hcm : e.cache_manager with _ | cm <;>
    simp only [SearchEngine.get_document, hcm] at h <;>
    repeat' split at h
  all_goals try contradiction
  all_goals simp only [Except.ok.injEq, Prod.mk.injEq] at h
  all_goals rw [← h.2]

theorem change_ranker_indexer (e : SearchEngine) (t : String)
    (b : Bool) (e₂ : SearchEngine) (h : e.change_ranker t = .ok (b, e₂)) :
    e₂.indexer = e.indexer := by
  unfold SearchEngine.change_ranker at h
  rcases hc : RankerFactory.create_ranker t with err | rk
  · simp only [hc] at h
    cases err <;> simp only at h <;> try contradiction
    simp only [Except.ok.injEq, Prod.mk.injEq] at h
    rw [← h.2]
  · simp only [hc] at h
    rcases hcm : e.cache_manager with _ | cm
    · simp only [hcm] at h
      simp only [Except.ok.injEq, Prod.mk.injEq] at h
      rw [← h.2]
    · simp only [hcm] at h
      by_cases hen : e.enable_cache = true
      · rw [if_pos hen] at h
        rcases hi : cm.invalidate_all_queries with err2 | pr
        · simp only [hi] at h
          cases err2 <;> simp only at h <;> try contradiction
          simp only [Except.ok.injEq, Prod.mk.injEq] at h
          rw [← h.2]
        · simp only [hi] at h
          simp only [Except.ok.injEq, Prod.mk.injEq] at h
          rw [← h.2]
      · rw [if_neg hen] at h
        simp only [Except.ok.injEq, Prod.mk.injEq] at h
        rw [← h.2]

theorem searchMiss_documents (e : SearchEngine) (q : String) (n : Int) (v : PyVal)
    (e₂ : SearchEngine) (h : e.searchMiss q n = .ok (v, e₂)) :
    e₂.indexer.documents = e.indexer.documents := by
  unfold SearchEngine.searchMiss at h
  by_cases hb : e.indexer.is_index_built = true
  · rw [if_neg (by simp [hb])] at h
    rcases hs : e.indexer.search q n with err | pr
    · simp only [hs] at h
      contradiction
    · obtain ⟨results, ix'⟩ := pr
      have hdocs := search_preserves_documents e.indexer q n results ix' hs
      simp only [hs] at h
      repeat' split at h
      all_goals try contradiction
      all_goals simp only [Except.ok.injEq, Prod.mk.injEq] at h
      all_goals rw [← h.2]
      all_goals exact hdocs
  · rw [if_pos (by simp [hb])] at h
    rcases hs : (e.indexer.build_index).2.search q n with err | pr
    · simp only [hs] at h
      contradiction
    · obtain ⟨results, ix'⟩ := pr
      have hdocs := search_preserves_documents _ q n results ix' hs
      rw [build_index_documents] at hdocs
      simp only [hs] at h
      repeat' split at h
      all_goals try contradiction
      all_goals simp only [Except.ok.injEq, Prod.mk.injEq] at h
      all_goals rw [← h.2]
      all_goals exact hdocs

theorem search_documents (e : SearchEngine) (q : String) (n : Int) (v : PyVal)
    (e₂ : SearchEngine) (h : e.search q n = .ok (v, e₂)) :
    e₂.indexer.documents = e.indexer.documents := by
  unfold SearchEngine.search at h
  rcases hcm : e.cache_manager with _ | cm
  · simp only [hcm] at h
    exact searchMiss_documents e q n v e₂ h
  · simp only [hcm] at h
    by_cases hen : e.enable_cache = true
    · rw [if_pos (by simp [hen])] at h
      rcases hg : cm.get_cached_query_results q n with err | pr
      · simp only [hg] at h
        contradiction
      · obtain ⟨cached?, cm'⟩ := pr
        simp only [hg] at h
        rcases cached? with _ | cached
        · simp only at h
          exact searchMiss_documents { e with cache_manager := some cm' } q n v e₂ h
        · simp only at h
          by_cases ht : pyTruthy cached = true
          · rw [if_pos ht] at h
            simp only [Except.ok.injEq, Prod.mk.injEq] at h
            rw [← h.2]
          · rw [if_neg ht] at h
            exact searchMiss_documents { e with cache_manager := some cm' } q n v e₂ h
    · rw [if_neg (by simp [hen])] at h
      exact searchMiss_documents e q n v e₂ h

/-- The public engine operations a caller can interleave between a removal and
a later search. -/
inductive EngineOp where
  | indexDoc (doc_id content : String) (metadata : PyVal)
  | indexDocs (documents_data : List PyVal)
  | removeDoc (doc_id : String)
  | searchQ (query : String) (top_n : Int)
  | getDoc (doc_id : String)
  | changeRanker (ranker_type : String)
  | enableCaching
  | disableCaching

/-- Run one engine operation, keeping the resulting engine state (raised
exceptions propagate as `.error`). -/
def runOp (e : SearchEngine) : EngineOp → Except PyErr SearchEngine
  | .indexDoc i c m =>
    match e.index_document i c m with
    | .ok r => .ok r.2
    | .error err => .error err
  | .indexDocs l =>
    match e.index_documents l with
    | .ok r => .ok r.2
    | .error err => .error err
  | .removeDoc i =>
    match e.remove_document i with
    | .ok r => .ok r.2
    | .error err => .error err
  | .searchQ q n =>
    match e.search q n with
    | .ok r => .ok r.2
    | .error err => .error err
  | .getDoc i =>
    match e.get_document i with
    | .ok r => .ok r.2
    | .error err => .error err
  | .changeRanker t =>
    match e.change_ranker t with
    | .ok r => .ok r.2
    | .error err => .error err
  | .enableCaching => .ok (e.enable_caching).2
  | .disableCaching => .ok (e.disable_caching).2

/-- Run a sequence of engine operations. -/
def runOps (e : SearchEngine) : List EngineOp → Except PyErr SearchEngine
  | [] => .ok e
  | op :: rest =>
    match runOp e op with
    | .ok e' => runOps e' rest
    | .error err => .error err

/-- Whether an operation can (re-)introduce a document with id `d`. -/
def opAddsId (op : EngineOp) (d : String) : Bool :=
  match op with
  | .indexDoc i _ _ => i = d
  | .indexDocs l => l.any (fun data =>
      match Document.from_dict data with
      | .ok doc => doc.doc_id = d
      | .error _ => false)
  | _ => false

theorem parse_mem (l : List PyVal) (doc : Document)
    (h : doc ∈ l.foldr (fun data acc =>
      match Document.from_dict data with
      | .ok dd => dd :: acc
      | .error _ => acc) []) :
    ∃ data ∈ l, Document.from_dict data = .ok doc := by
  induction l with
  | nil => simp at h
  | cons data rest ih =>
    simp only [List.foldr_cons] at h
    rcases hf : Document.from_dict data with err | dd
    · simp only [hf] at h
      obtain ⟨x, hx, hfx⟩ := ih h
      exact ⟨x, List.mem_cons_of_mem _ hx, hfx⟩
    · simp only [hf] at h
      rcases List.mem_cons.mp h with rfl | h2
      · exact ⟨data, List.mem_cons_self _ _, hf⟩
      · obtain ⟨x, hx, hfx⟩ := ih h2
        exact ⟨x, List.mem_cons_of_mem _ hx, hfx⟩

theorem collectResults_mem (docs : List Document) (doc_ids : List String) (scores : List ℚ)
    (idxs : List Nat) (res : List (Document × ℚ))
    (h : collectResults docs doc_ids scores idxs = .ok res) :
    ∀ x ∈ res, x.1 ∈ docs := by
  induction idxs generalizing res with
  | nil =>
    unfold collectResults at h
    simp only [Except.ok.injEq] at h
    subst h
    simp
  | cons i rest ih =>
    unfold collectResults at h
    rcases hs : scores.get? i with _ | score
    · simp only [hs] at h; contradiction
    · simp only [hs] at h
      by_cases hpos : score > 0
      · rw [if_pos hpos] at h
        rcases hid : doc_ids.get? i with _ | did
        · simp only [hid] at h; contradiction
        · simp only [hid] at h
          rcases hf : docs.find? (fun d => d.doc_id = did) with _ | doc
          · simp only [hf] at h; contradiction
          · simp only [hf] at h
            rcases hc : collectResults docs doc_ids scores rest with err | tail
            · simp only [hc] at h; contradiction
            · simp only [hc, Except.ok.injEq] at h
              subst h
              intro x hx
              rcases List.mem_cons.mp hx with rfl | hx
              · exact List.mem_of_find?_eq_some hf
              · exact ih tail hc x hx
      · rw [if_neg hpos] at h
        exact ih res h

theorem search_results_mem (ix : Indexer) (q : String) (n : Int)
    (res : List (Document × ℚ)) (ix' : Indexer)
    (hrun : ix.search q n = .ok (res, ix')) :
    ∀ x ∈ res, x.1 ∈ ix.documents := by
  unfold Indexer.search at hrun
  by_cases hb : ix.is_index_built = true
  · rw [if_neg (by simp [hb])] at hrun
    rcases hbe : ix.built with _ | snapshot
    · simp only [hbe] at hrun
      contradiction
    · simp only [hbe] at hrun
      split at hrun
      next results hcoll =>
        simp only [Except.ok.injEq, Prod.mk.injEq] at hrun
        rw [← hrun.1]
        exact collectResults_mem _ _ _ _ _ hcoll
      next err hcoll => contradiction
  · rw [if_pos (by simp [hb])] at hrun
    unfold Indexer.build_index at hrun
    by_cases hemp : ix.documents.isEmpty
    · rw [if_pos hemp] at hrun
      simp only [Bool.false_eq_true, if_false] at hrun
      simp only [Except.ok.injEq, Prod.mk.injEq] at hrun
      rw [← hrun.1]
      simp
    · rw [if_neg hemp] at hrun
      simp only [if_true] at hrun
      split at hrun
      next results hcoll =>
        simp only [Except.ok.injEq, Prod.mk.injEq] at hrun
        rw [← hrun.1]
        exact collectResults_mem _ _ _ _ _ hcoll
      next err hcoll => contradiction

/-- The `doc_id` fields of a search-result payload. -/
def ResultIds : PyVal → List String
  | .list l => l.foldr (fun item acc =>
      match item with
      | .dict m =>
        match dictLookup m "doc_id" with
        | some (.str s) => s :: acc
        | _ => acc
      | _ => acc) []
  | _ => []

theorem resultIds_format (res : List (Document × ℚ)) :
    ResultIds (.list (formatResults res)) = res.map (fun r => r.1.doc_id) := by
  induction res with
  | nil => rfl
  | cons r rest ih =>
    simp only [formatResults, List.map_cons] at ih ⊢
    simp only [ResultIds, List.foldr_cons] at ih ⊢
    rw [← ih]
    rfl

theorem searchMiss_ids (e : SearchEngine) (q : String) (n : Int) (v : PyVal)
    (e₂ : SearchEngine) (h : e.searchMiss q n = .ok (v, e₂)) :
    ∀ s ∈ ResultIds v, s ∈ docIds e := by
  unfold SearchEngine.searchMiss at h
  by_cases hb : e.indexer.is_index_built = true
  · rw [if_neg (by simp [hb])] at h
    rcases hs : e.indexer.search q n with err | pr
    · simp only [hs] at h
      contradiction
    · obtain ⟨results, ix'⟩ := pr
      have hmem := search_results_mem e.indexer q n results ix' hs
      simp only [hs] at h
      repeat' split at h
      all_goals try contradiction
      all_goals simp only [Except.ok.injEq, Prod.mk.injEq] at h
      all_goals rw [← h.1]
      all_goals rw [resultIds_format]
      all_goals intro s hsv
      all_goals obtain ⟨x, hx, rfl⟩ := List.mem_map.mp hsv
      all_goals exact List.mem_map.mpr ⟨x.1, hmem x hx, rfl⟩
  · rw [if_pos (by simp [hb])] at h
    rcases hs : (e.indexer.build_index).2.search q n with err | pr
    · simp only [hs] at h
      contradiction
    · obtain ⟨results, ix'⟩ := pr
      have hmem := search_results_mem _ q n results ix' hs
      rw [build_index_documents] at hmem
      simp only [hs] at h
      repeat' split at h
      all_goals try contradiction
      all_goals simp only [Except.ok.injEq, Prod.mk.injEq] at h
      all_goals rw [← h.1]
      all_goals rw [resultIds_format]
      all_goals intro s hsv
      all_goals obtain ⟨x, hx, rfl⟩ := List.mem_map.mp hsv
      all_goals exact List.mem_map.mpr ⟨x.1, hmem x hx, rfl⟩

theorem search_disabled (e : SearchEngine) (q : String) (n : Int)
    (hdis : e.enable_cache = false) : e.search q n = e.searchMiss q n := by
  unfold SearchEngine.search
  rcases hcm : e.cache_manager with _ | cm
  · simp only [hcm]
  · simp only [hcm]
    rw [if_neg (by simp [hdis])]

theorem enable_caching_indexer (e : SearchEngine) :
    ((e.enable_caching).2).indexer = e.indexer := by
  unfold SearchEngine.enable_caching
  rcases hcm : e.cache_manager with _ | cm <;> simp

theorem disable_caching_indexer (e : SearchEngine) :
    ((e.disable_caching).2).indexer = e.indexer := by
  unfold SearchEngine.disable_caching
  rcases hcm : e.cache_manager with _ | cm <;> simp

theorem remove_success_absent (e : SearchEngine) (d : String) (e' : SearchEngine)
    (h : e.remove_document d = .ok (true, e')) : d ∉ docIds e' := by
  have hind := remove_document_indexer e d true e' h
  unfold docIds
  rw [hind]
  exact remove_document_absent e.indexer d

theorem runOp_absent (e e₂ : SearchEngine) (op : EngineOp) (d : String)
    (hop : runOp e op = .ok e₂) (hnd : d ∉ docIds e) (hna : opAddsId op d = false) :
    d ∉ docIds e₂ := by
  cases op with
  | indexDoc i c m =>
    rcases hE : e.index_document i c m with err | pr
    · simp only [runOp, hE] at hop
      contradiction
    · simp only [runOp, hE, Except.ok.injEq] at hop
      subst hop
      have hind := index_document_indexer e i c m pr.1 pr.2 (by rw [hE])
      unfold docIds
      rw [hind]
      refine add_document_absent e.indexer _ d hnd ?_
      have hne : i ≠ d := by
        simpa [opAddsId] using hna
      simpa [mkDocument] using hne
  | indexDocs l =>
    rcases hE : e.index_documents l with err | pr
    · simp only [runOp, hE] at hop
      contradiction
    · simp only [runOp, hE, Except.ok.injEq] at hop
      subst hop
      have hind := index_documents_indexer e l pr.1 pr.2 (by rw [hE])
      unfold docIds
      rw [hind]
      unfold Indexer.add_documents
      refine add_documents_absent _ (0, e.indexer) d hnd ?_
      intro doc hdoc
      obtain ⟨data, hdata, hfd⟩ := parse_mem l doc hdoc
      simp only [opAddsId, List.any_eq_true, not_exists] at hna
      rw [List.any_eq_false] at hna
      have := hna data hdata
      rw [hfd] at this
      simpa using this
  | removeDoc i =>
    rcases hE : e.remove_document i with err | pr
    · simp only [runOp, hE] at hop
      contradiction
    · simp only [runOp, hE, Except.ok.injEq] at hop
      subst hop
      have hind := remove_document_indexer e i pr.1 pr.2 (by rw [hE])
      unfold docIds
      rw [hind]
      exact remove_document_other e.indexer i d hnd
  | searchQ q n =>
    rcases hE : e.search q n with err | pr
    · simp only [runOp, hE] at hop
      contradiction
    · simp only [runOp, hE, Except.ok.injEq] at hop
      subst hop
      have hdocs := search_documents e q n pr.1 pr.2 (by rw [hE])
      unfold docIds
      rw [hdocs]
      exact hnd
  | getDoc i =>
    rcases hE : e.get_document i with err | pr
    · simp only [runOp, hE] at hop
      contradiction
    · simp only [runOp, hE, Except.ok.injEq] at hop
      subst hop
      have hind := get_document_indexer e i pr.1 pr.2 (by rw [hE])
      unfold docIds
      rw [hind]
      exact hnd
  | changeRanker t =>
    rcases hE : e.change_ranker t with err | pr
    · simp only [runOp, hE] at hop
      contradiction
    · simp only [runOp, hE, Except.ok.injEq] at hop
      subst hop
      have hind := change_ranker_indexer e t pr.1 pr.2 (by rw [hE])
      unfold docIds
      rw [hind]
      exact hnd
  | enableCaching =>
    simp only [runOp, Except.ok.injEq] at hop
    subst hop
    unfold docIds
    rw [enable_caching_indexer]
    exact hnd
  | disableCaching =>
    simp only [runOp, Except.ok.injEq] at hop
    subst hop
    unfold docIds
    rw [disable_caching_indexer]
    exact hnd

theorem runOps_absent (ops : List EngineOp) (e e₂ : SearchEngine) (d : String)
    (hops : runOps e ops = .ok e₂) (hnd : d ∉ docIds e)
    (hna : ∀ op ∈ ops, opAddsId op d = false) :
    d ∉ docIds e₂ := by
  induction ops generalizing e with
  | nil =>
    unfold runOps at hops
    simp only [Except.ok.injEq] at hops
    subst hops
    exact hnd
  | cons op rest ih =>
    unfold runOps at hops
    rcases hr : runOp e op with err | e'
    · simp only [hr] at hops
      contradiction
    · simp only [hr] at hops
      exact ih e' hops
        (runOp_absent e e' op d hr hnd (hna op (List.mem_cons_self _ _)))
        (fun o ho => hna o (List.mem_cons_of_mem _ ho))

/-- C2 corrected: once `SearchEngine.remove_document d` returns success, any
subsequent `search` performed while engine-level caching is *disabled* returns
no result with `doc_id = d`, across any interleaved sequence of engine
operations that does not re-index a document with id `d`. (Searches served
from the query cache are excluded: `remove_document` only returns success —
rather than raising — when the engine-level cache path is inactive, so stale
query-cache entries naming `d` survive the removal and are exposed again if
caching is re-enabled, as the counterexample shows.) -/
theorem claim_C2_removed_absent_while_disabled (e : SearchEngine) (d : String)
    (e' : SearchEngine) (ops : List EngineOp) (eMid : SearchEngine)
    (q : String) (n : Int) (v : PyVal) (eFin : SearchEngine)
    (hrem : e.remove_document d = .ok (true, e'))
    (hops : runOps e' ops = .ok eMid)
    (hnoadd : ∀ op ∈ ops, opAddsId op d = false)
    (hdis : eMid.enable_cache = false)
    (hsearch : eMid.search q n = .ok (v, eFin)) :
    d ∉ ResultIds v := by
  have habs : d ∉ docIds eMid :=
    runOps_absent ops e' eMid d hops (remove_success_absent e d e' hrem) hnoadd
  rw [search_disabled eMid q n hdis] at hsearch
  intro hdv
  exact habs (searchMiss_ids eMid q n v eFin hsearch d hdv)

/-- C2 as stated: if `d` appeared in the result set of a prior search, and
`remove_document d` later returns success, then no subsequent search — with
caching enabled or disabled — returns a result with `doc_id = d`, for any
interleavings that do not re-index `d`. -/
def RemovedNeverReturned : Prop :=
  ∀ (e₀ : SearchEngine) (qp : String) (np : Int) (vp : PyVal) (e₁ : SearchEngine)
    (d : String) (ops₁ : List EngineOp) (e₂ : SearchEngine) (e₃ : SearchEngine)
    (ops₂ : List EngineOp) (e₄ : SearchEngine)
    (q : String) (n : Int) (v : PyVal) (e₅ : SearchEngine),
    e₀.search qp np = .ok (vp, e₁) →
    d ∈ ResultIds vp →
    runOps e₁ ops₁ = .ok e₂ →
    e₂.remove_document d = .ok (true, e₃) →
    runOps e₃ ops₂ = .ok e₄ →
    (∀ op ∈ ops₂, opAddsId op d = false) →
    e₄.search q n = .ok (v, e₅) →
    d ∉ ResultIds v

/-- Step 1 of the C2 trace: search `"cats"` on the cache-enabled engine
holding document `a`; the result is cached. -/
def c2s1 : Except PyErr (PyVal × SearchEngine) := engCachedA.search "cats" 10

/-- The results of step 1 (they name document `a`). -/
def c2v1 : PyVal := match c2s1 with | .ok r => r.1 | .error _ => PyVal.none

/-- The engine after step 1. -/
def c2e1 : SearchEngine := match c2s1 with | .ok r => r.2 | .error _ => engCachedA

/-- Step 2: disable caching. -/
def c2e2 : SearchEngine := (c2e1.disable_caching).2

/-- Step 3: remove document `a` — it succeeds because caching is off. -/
def c2r : Except PyErr (Bool × SearchEngine) := c2e2.remove_document "a"

/-- The engine after step 3. -/
def c2e3 : SearchEngine := match c2r with | .ok r => r.2 | .error _ => c2e2

/-- Step 4: re-enable caching, exposing the stale query-cache entry again. -/
def c2e4 : SearchEngine := (c2e3.enable_caching).2

/-- Step 5: search `"cats"` again — served from the stale cache. -/
def c2s5 : Except PyErr (PyVal × SearchEngine) := c2e4.search "cats" 10

/-- The results of step 5: they still name the removed document `a`. -/
def c2v2 : PyVal := match c2s5 with | .ok r => r.1 | .error _ => PyVal.none

/-- The engine after step 5. -/
def c2e5 : SearchEngine := match c2s5 with | .ok r => r.2 | .error _ => c2e4

/-- C2 as stated is false: search `"cats"` (hits document `a`, result cached),
disable caching, remove `a` (returns success), re-enable caching, search
`"cats"` again — the stale cached result still returns `doc_id "a"`. -/
theorem claim_C2_counterexample : ¬ RemovedNeverReturned := by
  intro h
  exact h engCachedA "cats" 10 c2v1 c2e1 "a" [.disableCaching] c2e2 c2e3
      [.enableCaching] c2e4 "cats" 10 c2v2 c2e5
      rfl (by decide) rfl rfl rfl
      (fun op hop => by
        cases hop with
        | head => rfl
        | tail _ hh => cases hh)
      rfl (by decide)

/-- A cache-disabled search on the engine after the removal (no re-enabling):
this is the amended claim's setting. -/
def c2s6 : Except PyErr (PyVal × SearchEngine) := c2e3.search "cats" 10

/-- The results of the cache-disabled search after removal. -/
def c2v3 : PyVal := match c2s6 with | .ok r => r.1 | .error _ => PyVal.none

/-- The engine after the cache-disabled search. -/
def c2e6 : SearchEngine := match c2s6 with | .ok r => r.2 | .error _ => c2e3

/-- Closed instance of the corrected C2: after the successful removal of `a`
with caching disabled, the next cache-disabled search does not return `a`. -/
theorem claim_C2_witness :
    c2e2.remove_document "a" = .ok (true, c2e3) ∧
    runOps c2e3 [] = .ok c2e3 ∧
    c2e3.enable_cache = false ∧
    c2e3.search "cats" 10 = .ok (c2v3, c2e6) ∧
    "a" ∉ ResultIds c2v3 :=
  ⟨rfl, rfl, rfl, rfl,
   claim_C2_removed_absent_while_disabled c2e2 "a" c2e3 [] c2e3 "cats" 10 c2v3 c2e6
     rfl rfl (fun op hop => absurd hop (List.not_mem_nil op)) rfl rfl⟩
